import Mathlib

set_option maxRecDepth 100000

/-!
Verification of the decision pipeline of a machine-parameter advisory
service.  The Python sources are shallowly embedded below:

* `server/app/rules.py` — the `RulesEngine` that clamps suggested
  parameters to machine capabilities (`clampToMachine`, `boundsFor`, …);
* `server/app/ml/pipeline.py` — the diagnostic pipeline (issue delta
  table, linear classifier loading, prediction ranking, box search);
* `server/rules/suggest.py` — the `SuggestionPlanner` that turns ranked
  predictions into machine-aware suggestions.

Python floats are modelled as exact rationals; Python `round(x, 3)`
(round-half-to-even on the third decimal) is modelled by `round3`.
Python values that may be `int`, `float` or non-numeric are modelled by
`PyVal`; dictionaries are association lists in insertion order, matching
CPython dictionary iteration order, with unique keys.
-/

/-! ## Definitions -/

/-! ### Round-half-to-even: the model of Python `round` -/

/-- Round to the nearest integer, ties to the even neighbour, exactly as
Python `round` behaves on the exact value of its argument. -/
def rhe (q : ℚ) : ℤ :=
  if q - ⌊q⌋ < 1/2 then ⌊q⌋
  else if 1/2 < q - ⌊q⌋ then ⌊q⌋ + 1
  else if ⌊q⌋ % 2 = 0 then ⌊q⌋ else ⌊q⌋ + 1

/-- Model of Python `round(x, 3)`. -/
def round3 (q : ℚ) : ℚ := (rhe (1000 * q) : ℚ) / 1000

/-! ### Python values and helper functions -/

/-- A Python value reaching the clamp loop: an `int`, a `float`, or some
other (non-numeric) object, represented by its string form. -/
inductive PyVal where
  | int : ℤ → PyVal
  | float : ℚ → PyVal
  | str : String → PyVal
deriving DecidableEq

/-- Model of `RulesEngine._to_float` (and of `isinstance(v, (int,
float))` guards): numeric values convert, everything else is `none`. -/
def PyVal.toFloat? : PyVal → Option ℚ
  | .int n => some (n : ℚ)
  | .float q => some q
  | .str _ => none

/-- ASCII lowercasing of a string, the model of `str.lower()` on the
identifiers appearing in this codebase. -/
def lowerStr (s : String) : String := String.mk (s.data.map Char.toLower)

/-- Contiguous-sublist test on character lists. -/
def subList (needle : List Char) : List Char → Bool
  | [] => needle.isEmpty
  | c :: t => needle.isPrefixOf (c :: t) || subList needle t

/-- Model of the Python substring test `needle in hay`. -/
def containsStr (hay needle : String) : Bool := subList needle.data hay.data

/-- Model of Python `x or default` for optional strings (empty string is
falsy). -/
def orElseStr (v : Option String) (d : String) : String :=
  match v with
  | some s => if s = "" then d else s
  | none => d

/-- Model of Python `x or default` for optional numbers (zero is falsy). -/
def orElseQ (v : Option ℚ) (d : ℚ) : ℚ :=
  match v with
  | some q => if q = 0 then d else q
  | none => d

/-! ### Machine profiles -/

/-- Model of a machine profile record (a loosely-typed dict in the
source).  Only the fields read by the embedded code appear.  Numeric
fields are `Option ℚ`: a missing or non-numeric entry behaves as absent,
exactly as the `_to_float` and `or`-fallback readers treat it.  Material
preset ranges are numeric lists, as in the shipped machine catalog. -/
structure MachineProfile where
  mtype : Option String := none
  motion_system : Option String := none
  enclosed : Bool := false
  supports_ams : Bool := false
  supports_input_shaping : Bool := false
  supports_idex : Bool := false
  material_presets : List (String × List (String × List ℚ)) := []
  safe_speed_ranges : List (String × List PyVal) := []
  max_nozzle_temp_c : Option ℚ := none
  max_bed_temp_c : Option ℚ := none
  spindle_rpm_range : List ℚ := []
  max_feed_mm_min : Option ℚ := none
  rigidity_class : Option String := none
deriving DecidableEq

/-! ### `server/app/rules.py` — the rules engine -/

/-- Tier allow-list: the source's `"*"` is `.all`. -/
inductive Allowed where
  | all : Allowed
  | only : List String → Allowed
deriving DecidableEq

def Allowed.contains : Allowed → String → Bool
  | .all, _ => true
  | .only l, k => l.contains k

structure TierSettings where
  allowed : Allowed
  max_factor : ℚ
  note : String
deriving DecidableEq

def beginnerSettings : TierSettings :=
  { allowed := .only ["nozzle_temp", "bed_temp", "print_speed", "fan_speed", "flow_rate"]
    max_factor := 17/20
    note := "Beginner mode limits adjustments to core temperature and speed controls." }

def intermediateSettings : TierSettings :=
  { allowed := .only ["nozzle_temp", "bed_temp", "print_speed", "travel_speed", "accel",
      "fan_speed", "flow_rate", "retraction_distance"]
    max_factor := 19/20
    note := "Intermediate mode unlocks motion controls with moderate guard rails." }

def advancedSettings : TierSettings :=
  { allowed := .all
    max_factor := 1
    note := "Advanced mode exposes all tunables within machine limits." }

/-- `RulesEngine.EXPERIENCE_SETTINGS`. -/
def EXPERIENCE_SETTINGS : List (String × TierSettings) :=
  [("Beginner", beginnerSettings), ("Intermediate", intermediateSettings),
   ("Advanced", advancedSettings)]

/-- `EXPERIENCE_SETTINGS.get(experience, EXPERIENCE_SETTINGS["Intermediate"])`. -/
def settingsFor (experience : String) : TierSettings :=
  (List.lookup experience EXPERIENCE_SETTINGS).getD intermediateSettings

/-- `RulesEngine._range_from_safe`: first and last entries of a declared
range list, converted by `_to_float`. -/
def rangeFromSafe (safe : List (String × List PyVal)) (key : String) : Option ℚ × Option ℚ :=
  match List.lookup key safe with
  | some (v :: vs) => (v.toFloat?, (((v :: vs).getLast?).getD v).toFloat?)
  | _ => (none, none)

/-- `RulesEngine._range_from_list` (spindle ranges hold numeric entries,
so `_to_float` of the first and last entries is `some`). -/
def rangeFromList (values : List ℚ) : Option ℚ × Option ℚ :=
  match values with
  | [] => (none, none)
  | v :: vs => (some v, some (((v :: vs).getLast?).getD v))

/-- `RulesEngine._min_from_presets`: the minimum over the first entries
of the per-material preset ranges for `key`. -/
def minFromPresets (presets : List (String × List (String × List ℚ))) (key : String) :
    Option ℚ :=
  let mins := presets.filterMap fun p =>
    match List.lookup key p.2 with
    | some (x :: _) => some x
    | _ => none
  match mins with
  | [] => none
  | x :: xs => some (xs.foldl min x)

/-- `RulesEngine._doc_limit`: depth-of-cut limit from the rigidity
class. -/
def docLimit (m : MachineProfile) : ℚ :=
  let rigidity := lowerStr (orElseStr m.rigidity_class "hobby")
  if rigidity = "hobby" then 2
  else if rigidity = "hobby_pro" then 3
  else if rigidity = "light_industrial" then 5
  else if rigidity = "industrial" then 8
  else 3

/-- `RulesEngine._bounds_for`. -/
def boundsFor (m : MachineProfile) (key : String) : Option ℚ × Option ℚ :=
  if key = "nozzle_temp" then (minFromPresets m.material_presets "nozzle_c", m.max_nozzle_temp_c)
  else if key = "bed_temp" then (minFromPresets m.material_presets "bed_c", m.max_bed_temp_c)
  else if key = "print_speed" then rangeFromSafe m.safe_speed_ranges "print"
  else if key = "travel_speed" then rangeFromSafe m.safe_speed_ranges "travel"
  else if key = "accel" then rangeFromSafe m.safe_speed_ranges "accel"
  else if key = "jerk" then rangeFromSafe m.safe_speed_ranges "jerk"
  else if key = "fan_speed" then (some 0, some 100)
  else if key = "flow_rate" then (some 80, some 120)
  else if key = "retraction_distance" then (some (1/5), some 8)
  else if key = "spindle_rpm" then rangeFromList m.spindle_rpm_range
  else if key = "feed_rate" then (some 100, m.max_feed_mm_min)
  else if key = "doc" then (some (1/10), some (docLimit m))
  else if key = "stepover" then (some 1, some 60)
  else (none, none)

/-- The margin-adjusted maximum: the source multiplies the declared max
by the tier factor only when the max is numeric and the factor is below
one. -/
def effectiveMax (mx : Option ℚ) (factor : ℚ) : Option ℚ :=
  match mx with
  | some M => if factor < 1 then some (M * factor) else some M
  | none => none

/-- First step of the numeric clamp: values below the minimum are raised
to it. -/
def clampMin (mn : Option ℚ) (q : ℚ) : ℚ :=
  match mn with
  | some b => if q < b then b else q
  | none => q

/-- Both steps of the numeric clamp, before rounding: raise to the
minimum, then lower to the margin-adjusted maximum. -/
def clampQ (mn mx : Option ℚ) (q : ℚ) : ℚ :=
  match mx with
  | some M => if M < clampMin mn q then M else clampMin mn q
  | none => clampMin mn q

/-- Whether the minimum clamp fires (`new_value < min_bound`). -/
def minFiredB (mn : Option ℚ) (q : ℚ) : Bool :=
  match mn with
  | some b => decide (q < b)
  | none => false

/-- Whether the maximum clamp fires (`new_value > effective_max`, tested
after the minimum step). -/
def maxFiredB (mx : Option ℚ) (q1 : ℚ) : Bool :=
  match mx with
  | some M => decide (M < q1)
  | none => false

/-- The numeric branch of the clamp loop: raise to the minimum, lower to
the margin-adjusted maximum, then round floats to three decimals.  A
clamped value is always a float; an untouched `int` stays an `int`
(`orig`).  Returns the stored value, whether a clamp fired, and the
emitted explanations (the source interpolates the numeric bound into the
message text, which is not modelled). -/
def clampNum (mn mx : Option ℚ) (key : String) (q : ℚ) (isFl : Bool) (orig : PyVal) :
    PyVal × Bool × List String :=
  let c1 := minFiredB mn q
  let c2 := maxFiredB mx (clampMin mn q)
  let fired := c1 || c2
  let expls :=
    (if c1 then ["Raised " ++ key ++ " to machine minimum."] else []) ++
    (if c2 then ["Reduced " ++ key ++ " based on limits."] else [])
  ((if isFl || fired then .float (round3 (clampQ mn mx q)) else orig), fired, expls)

/-- Per-key body of the `clamp_to_machine` loop: non-numeric values pass
through unclamped. -/
def clampValue (m : MachineProfile) (factor : ℚ) (key : String) (v : PyVal) :
    PyVal × Bool × List String :=
  let bounds := boundsFor m key
  let emax := effectiveMax bounds.2 factor
  match v with
  | .str s => (.str s, false, [])
  | .int n => clampNum bounds.1 emax key (n : ℚ) false (.int n)
  | .float q => clampNum bounds.1 emax key q true (.float q)

/-- Insert into a strictly sorted list of strings, dropping duplicates:
together with a fold this is `sorted(set(...))`. -/
def insertSortedStr (s : String) : List String → List String
  | [] => [s]
  | x :: xs => if s < x then s :: x :: xs else if s = x then x :: xs else x :: insertSortedStr s xs

def sortedDedup (l : List String) : List String := l.foldl (fun acc s => insertSortedStr s acc) []

/-- The dict returned by `clamp_to_machine`. -/
structure ClampResult where
  parameters : List (String × PyVal)
  hidden_parameters : List String
  experience_level : String
  clamped_to_machine_limits : Bool
  explanations : List String
deriving DecidableEq

/-- `RulesEngine.clamp_to_machine`.  The source's single loop appends to
four independent accumulators; each accumulator is expressed as its own
traversal of the input items. -/
def clampToMachine (m : MachineProfile) (ps : List (String × PyVal)) (experience : String) :
    ClampResult :=
  let st := settingsFor experience
  { parameters := ps.filterMap fun p =>
      if st.allowed.contains p.1 then some (p.1, (clampValue m st.max_factor p.1 p.2).1) else none
    hidden_parameters := sortedDedup (ps.filterMap fun p =>
      if st.allowed.contains p.1 then none else some p.1)
    experience_level := experience
    clamped_to_machine_limits := ps.any fun p =>
      st.allowed.contains p.1 && (clampValue m st.max_factor p.1 p.2).2.1
    explanations := st.note :: (ps.map fun p =>
      if st.allowed.contains p.1 then (clampValue m st.max_factor p.1 p.2).2.2 else []).flatten }

/-- Decidable equality for `Except`, used to evaluate concrete pipeline
results. -/
instance {ε α : Type} [DecidableEq ε] [DecidableEq α] : DecidableEq (Except ε α) := fun a b =>
  match a, b with
  | .error e, .error f =>
      if h : e = f then .isTrue (by rw [h]) else .isFalse (by intro hef; cases hef; exact h rfl)
  | .error _, .ok _ => .isFalse (by intro h; cases h)
  | .ok _, .error _ => .isFalse (by intro h; cases h)
  | .ok x, .ok y =>
      if h : x = y then .isTrue (by rw [h]) else .isFalse (by intro hxy; cases hxy; exact h rfl)

/-! ### `server/app/ml/pipeline.py` — issue deltas -/

/-- `ISSUE_LABELS`. -/
def ISSUE_LABELS : List String :=
  ["stringing", "under_extrusion", "over_extrusion", "ringing", "z_wobble", "layer_shift",
   "elephants_foot", "warping", "poor_adhesion", "blobs", "overheating", "cooling_artifacts",
   "wet_filament", "dimensional_error"]

/-- `ISSUE_PARAM_DELTAS`: the fixed per-issue delta table. -/
def ISSUE_PARAM_DELTAS : List (String × List (String × ℚ)) :=
  [("stringing",
      [("nozzle_temp", -8), ("fan_speed", 12), ("retraction_distance", 1/5),
       ("travel_speed", 10)]),
   ("under_extrusion", [("flow_rate", 8), ("nozzle_temp", 6), ("print_speed", -15)]),
   ("over_extrusion", [("flow_rate", -6), ("retraction_distance", -1/10)]),
   ("ringing", [("accel", -1200), ("jerk", -2), ("print_speed", -10)]),
   ("layer_shift", [("accel", -800), ("travel_speed", -15)]),
   ("warping", [("bed_temp", 8), ("fan_speed", -25)]),
   ("poor_adhesion", [("bed_temp", 6), ("print_speed", -8), ("flow_rate", 3)]),
   ("overheating", [("fan_speed", 20), ("print_speed", -12)]),
   ("wet_filament", [("fan_speed", 5), ("nozzle_temp", -4)]),
   ("dimensional_error", [("flow_rate", -4), ("print_speed", -10), ("jerk", -1)])]

/-- Python dict assignment on an existing key: the entry is updated in
place (the callers below only assign keys that are already present). -/
def dictSet (d : List (String × ℚ)) (k : String) (v : ℚ) : List (String × ℚ) :=
  d.map fun p => if p.1 = k then (k, v) else p

/-- One iteration of `_apply_issue_deltas`: skip keys absent from the
targets, add the delta, restrict percentages to 0–100 and the rest to
nonnegative values, round to three decimals.  (The source's
`retraction_distance` arm and its default arm are the same bound.) -/
def deltaStep (adjusted : List (String × ℚ)) (kd : String × ℚ) : List (String × ℚ) :=
  match List.lookup kd.1 adjusted with
  | none => adjusted
  | some v =>
      let value := v + kd.2
      let value :=
        if kd.1 = "fan_speed" ∨ kd.1 = "flow_rate" then max 0 (min 100 value)
        else if kd.1 = "retraction_distance" then max 0 value
        else max 0 value
      dictSet adjusted kd.1 (round3 value)

/-- `DiagnosticPipeline._apply_issue_deltas`. -/
def applyIssueDeltas (targets : List (String × ℚ)) (issue : String) : List (String × ℚ) :=
  ((List.lookup issue ISSUE_PARAM_DELTAS).getD []).foldl deltaStep targets

/-! ### `server/app/ml/pipeline.py` — the linear classifier -/

/-- The classifier artifact document (`issues_linear_model.json`): label
list, weight matrix, bias vector.  `labels` and `bias` may be absent
(the loader defaults them); reading an absent `weights` key raises. -/
structure LinearArtifact where
  labels : Option (List String) := none
  weights : Option (List (List ℚ)) := none
  bias : Option (List ℚ) := none
deriving DecidableEq

/-- `_LinearClassifier._load`: a missing artifact file or a
row-count/label-count mismatch raises; nothing is downgraded. -/
def linearLoad (doc : Option LinearArtifact) :
    Except String (List (List ℚ) × List ℚ × List String) :=
  match doc with
  | none => .error "Linear model weights not found"
  | some d =>
      let labels := d.labels.getD ISSUE_LABELS
      match d.weights with
      | none => .error "KeyError: weights"
      | some w =>
          let bias := d.bias.getD (List.replicate labels.length 0)
          if w.length = labels.length then .ok (w, bias, labels)
          else .error "Weight matrix rows do not match label count"

def dotQ (xs ys : List ℚ) : ℚ := (List.zipWith (fun a b => a * b) xs ys).sum

/-- `logits = feature_vector @ weights.T + bias`. -/
def linearLogits (w : List (List ℚ)) (bias : List ℚ) (features : List ℚ) : List ℚ :=
  List.zipWith (fun row bi => dotQ features row + bi) w bias

/-- `_LinearClassifier.predict`.  The numpy sigmoid `1/(1+exp(-x))` is a
total pointwise map on the logits; it is abstracted as `σ` because exact
real exponentiation has no executable rational model, and no claim
settled here depends on its values — only on the error path and on the
post-sigmoid score handling. -/
def linearPredict (σ : ℚ → ℚ) (doc : Option LinearArtifact) (features : List ℚ) :
    Except String (List ℚ × List String) :=
  (linearLoad doc).map fun t => ((linearLogits t.1 t.2.1 features).map σ, t.2.2)

/-! ### `server/app/ml/pipeline.py` — prediction ranking -/

/-- Model of `server/models/api.py` `Prediction` (the pydantic range
validation on `confidence` is not modelled; C8 establishes the range). -/
structure Prediction where
  issue_id : String
  confidence : ℚ
deriving DecidableEq

/-- Whether `"bowden" in str(machine.get("motion_system") or "").lower()`. -/
def bowdenMotion (m : MachineProfile) : Bool :=
  containsStr (lowerStr (orElseStr m.motion_system "")) "bowden"

/-- The per-label confidence adjustment of `_build_predictions`: bowden
machines boost `stringing` by 0.08, enclosed machines boost `warping`
and `overheating` by 0.05, both capped at 0.995. -/
def adjustQ (m : MachineProfile) (label : String) (score : ℚ) : ℚ :=
  let adjusted := score
  let adjusted :=
    if bowdenMotion m ∧ label = "stringing" then min (199/200) (adjusted + 2/25) else adjusted
  if m.enclosed ∧ (label = "warping" ∨ label = "overheating") then
    min (199/200) (adjusted + 1/20)
  else adjusted

/-- The `(label, round(adjusted, 3))` score list of `_build_predictions`. -/
def adjustedScores (m : MachineProfile) (labels : List String) (probs : List ℚ) :
    List (String × ℚ) :=
  (labels.zip probs).map fun ls => (ls.1, round3 (adjustQ m ls.1 ls.2))

/-- Stable descending insertion by score: with a left fold this models
`scores.sort(key=..., reverse=True)` (Python's sort is stable; a later
element with an equal score stays after earlier ones). -/
def insertDesc (x : String × ℚ) : List (String × ℚ) → List (String × ℚ)
  | [] => [x]
  | y :: ys => if x.2 ≤ y.2 then y :: insertDesc x ys else x :: y :: ys

def sortDesc (l : List (String × ℚ)) : List (String × ℚ) :=
  l.foldl (fun acc x => insertDesc x acc) []

/-- `DiagnosticPipeline._build_predictions`: size-mismatch guard, score
adjustment, descending sort, top five. -/
def buildPredictions (m : MachineProfile) (labels : List String) (probs : List ℚ) :
    Except String (List Prediction) :=
  if probs.length ≠ labels.length then
    .error "Classifier output size does not match number of labels"
  else
    .ok (((sortDesc (adjustedScores m labels probs)).take 5).map fun p =>
      { issue_id := p.1, confidence := p.2 })

/-! ### `server/app/ml/pipeline.py` — the box search -/

/-- Inclusive prefix sums of one row (`cumsum(axis=1)` of that row). -/
def cumsumRow (l : List ℚ) : List ℚ := (l.scanl (fun a b => a + b) 0).tail

def cumsumColsAux (prev : List ℚ) : List (List ℚ) → List (List ℚ)
  | [] => []
  | r :: rs =>
      let s := List.zipWith (fun a b => a + b) prev r
      s :: cumsumColsAux s rs

/-- `cumsum(axis=0)`: running elementwise sums down the rows. -/
def cumsumCols : List (List ℚ) → List (List ℚ)
  | [] => []
  | r :: rs => r :: cumsumColsAux r rs

/-- `heat.cumsum(axis=0).cumsum(axis=1)`: the 2-D prefix-sum image. -/
def integralOf (g : List (List ℚ)) : List (List ℚ) := (cumsumCols g).map cumsumRow

def entry (g : List (List ℚ)) (y x : ℕ) : ℚ := (g.getD y []).getD x 0

/-- `DiagnosticPipeline._window_sum`. -/
def windowSum (integral : List (List ℚ)) (x0 y0 x1 y1 : ℕ) : ℚ :=
  let tl := if 0 < y0 ∧ 0 < x0 then entry integral (y0 - 1) (x0 - 1) else 0
  let tr := if 0 < y0 then entry integral (y0 - 1) x1 else 0
  let bl := if 0 < x0 then entry integral y1 (x0 - 1) else 0
  let br := entry integral y1 x1
  br - tr - bl + tl

/-- `range(0, dim - win + 1, stride)`. -/
def stridedPositions (dim win stride : ℕ) : List ℕ :=
  if win ≤ dim then List.range' 0 ((dim - win) / stride + 1) stride else []

/-- Scan order of the window search: `y` outer, `x` inner. -/
def candidates (H W wh ww sy sx : ℕ) : List (ℕ × ℕ) :=
  (stridedPositions H wh sy).flatMap fun y =>
    (stridedPositions W ww sx).map fun x => (x, y)

/-- One step of the arg-max scan: a window is taken only on a strict
improvement over `best_score`, so the first maximum wins. -/
def searchStep (integral : List (List ℚ)) (wh ww : ℕ)
    (st : ℚ × Option (ℕ × ℕ × ℕ × ℕ)) (c : ℕ × ℕ) : ℚ × Option (ℕ × ℕ × ℕ × ℕ) :=
  let score := windowSum integral c.1 c.2 (c.1 + ww - 1) (c.2 + wh - 1)
  if st.1 < score then (score, some (c.1, c.2, c.1 + ww - 1, c.2 + wh - 1)) else st

/-- The arg-max scan: `best_score` starts at −1, `best_coords` at none. -/
def searchBest (integral : List (List ℚ)) (cands : List (ℕ × ℕ)) (wh ww : ℕ) :
    ℚ × Option (ℕ × ℕ × ℕ × ℕ) :=
  cands.foldl (searchStep integral wh ww) (-1, none)

/-- `heat[y0:y1+1, x0:x1+1] *= 0.25`. -/
def suppressRegion (heat : List (List ℚ)) (x0 y0 x1 y1 : ℕ) : List (List ℚ) :=
  heat.enum.map fun yr =>
    if y0 ≤ yr.1 ∧ yr.1 ≤ y1 then
      yr.2.enum.map fun xv => if x0 ≤ xv.1 ∧ xv.1 ≤ x1 then xv.2 * (1/4) else xv.2
    else yr.2

/-- Model of `server/models/api.py` `BoundingBox` (pydantic range
validation is not modelled; C9 establishes the geometry). -/
structure Box where
  issue_id : String
  confidence : ℚ
  x : ℚ
  y : ℚ
  width : ℚ
  height : ℚ
deriving DecidableEq

/-- The per-prediction loop of `_build_boxes`: recompute the integral
image, pick the best window, emit a box, damp the chosen region by 0.25,
continue; stop early when no window fits. -/
def boxLoop (H W wh ww sy sx : ℕ) : List (List ℚ) → List Prediction → List Box
  | _, [] => []
  | heat, pred :: rest =>
      let integral := integralOf heat
      match searchBest integral (candidates H W wh ww sy sx) wh ww with
      | (_, none) => []
      | (best, some c) =>
          { issue_id := pred.issue_id,
            confidence := min (99/100) (max (1/10) (best / ((wh : ℚ) * (ww : ℚ)))),
            x := round3 ((c.1 : ℚ) / (W : ℚ)),
            y := round3 ((c.2.1 : ℚ) / (H : ℚ)),
            width := round3 (((c.2.2.1 - c.1 + 1 : ℕ) : ℚ) / (W : ℚ)),
            height := round3 (((c.2.2.2 - c.2.1 + 1 : ℕ) : ℚ) / (H : ℚ)) }
            :: boxLoop H W wh ww sy sx (suppressRegion heat c.1 c.2.1 c.2.2.1 c.2.2.2) rest

/-- `DiagnosticPipeline._build_boxes`. -/
def buildBoxes (activation : List (List ℚ)) (preds : List Prediction) : List Box :=
  match preds with
  | [] => []
  | _ :: _ =>
      let H := activation.length
      let W := (activation.headD []).length
      if H < 4 ∨ W < 4 then []
      else
        let wh := max 16 (H / 4)
        let ww := max 16 (W / 4)
        let sy := max 4 (wh / 6)
        let sx := max 4 (ww / 6)
        boxLoop H W wh ww sy sx activation (preds.take 3)

/-! ### `server/rules/suggest.py` — the suggestion planner

The planner's clamp engine is imported from `server/rules/clamp.py`,
which is absent from the tree; spec §4.5 describes a single clamp
engine, and the tests exercise `server/app/rules.py` together with the
planner, so `clampToMachine` above is used as its model.  The claims
settled against the planner do not depend on the clamp internals. -/

/-- Model of `SuggestionChange`. -/
structure SChange where
  param : String
  new_target : Option PyVal
  unit : Option String
  delta : Option ℚ
  range_hint : Option (ℚ × ℚ)
deriving DecidableEq

/-- Model of `Suggestion`. -/
structure Suggestion where
  issue_id : String
  changes : List SChange
  why : String
  risk : String
  confidence : ℚ
  beginner_note : String
  advanced_note : String
  clamped_to_machine_limits : Bool
deriving DecidableEq

/-- One adjustment dict in a handler's list. -/
structure Adj where
  param : String
  target : Option PyVal
  unit : Option String := none
  range_hint : Option (ℚ × ℚ) := none
  requires_clamp : Bool
deriving DecidableEq

/-- The planner context of `SuggestionPlanner.__init__`: the resolved
machine (identifier resolution is an external interface), the uppercased
material code (`(meta.material or "PLA").upper()`), and the experience
string (`meta.experience or "Intermediate"`). -/
structure PlannerCtx where
  machine : MachineProfile
  material : String
  experience : String

/-- `self.motion = str(self.machine.get("motion_system") or "BedSlinger")`. -/
def ctxMotion (ctx : PlannerCtx) : String := orElseStr ctx.machine.motion_system "BedSlinger"

/-- `isinstance`-style mean of a preset range, with fallback
(`_baseline_fdm`'s local `midpoint`). -/
def midpointQ (values : Option (List ℚ)) (fallback : ℚ) : ℚ :=
  match values with
  | some (x :: xs) => ((x :: xs).sum) / (((x :: xs).length : ℚ))
  | _ => fallback

/-- The preset dict chosen by `_baseline_fdm`:
`presets.get(self.material) or presets.get("PLA") or` the empty dict
(an empty dict is falsy). -/
def fdmPreset (ctx : PlannerCtx) : List (String × List ℚ) :=
  match List.lookup ctx.material ctx.machine.material_presets with
  | some (p :: ps) => p :: ps
  | _ =>
      match List.lookup "PLA" ctx.machine.material_presets with
      | some (p :: ps) => p :: ps
      | _ => []

/-- `motion in ("CoreXY", "H-Bot")` (exact match in the planner). -/
def fdmCoreXY (ctx : PlannerCtx) : Bool :=
  ctxMotion ctx = "CoreXY" || ctxMotion ctx = "H-Bot"

def fdmNozzle (ctx : PlannerCtx) : ℚ := midpointQ (List.lookup "nozzle_c" (fdmPreset ctx)) 210

def fdmBedBase (ctx : PlannerCtx) : ℚ := midpointQ (List.lookup "bed_c" (fdmPreset ctx)) 60

def fdmFanBase (ctx : PlannerCtx) : ℚ := midpointQ (List.lookup "fan_pct" (fdmPreset ctx)) 70

/-- Enclosed ABS: bed raised by 10 capped at the machine maximum (a
falsy maximum falls back to the bed value itself). -/
def fdmBed (ctx : PlannerCtx) : ℚ :=
  if ctx.machine.enclosed ∧ ctx.material = "ABS" then
    min (fdmBedBase ctx + 10) (orElseQ ctx.machine.max_bed_temp_c (fdmBedBase ctx))
  else fdmBedBase ctx

/-- Enclosed ABS: fan capped at 15. -/
def fdmFan (ctx : PlannerCtx) : ℚ :=
  if ctx.machine.enclosed ∧ ctx.material = "ABS" then min (fdmFanBase ctx) 15
  else fdmFanBase ctx

def fdmPrintSpeed (ctx : PlannerCtx) : ℚ := if fdmCoreXY ctx then 120 else 90

def fdmTravelSpeed (ctx : PlannerCtx) : ℚ := if fdmCoreXY ctx then 150 else 120

def fdmAccel (ctx : PlannerCtx) : ℚ :=
  if ctx.machine.supports_input_shaping then 5000 else 3000

def fdmJerk (ctx : PlannerCtx) : ℚ := if fdmCoreXY ctx then 12 else 8

def fdmRetraction (ctx : PlannerCtx) : ℚ := if ctx.machine.supports_ams then 4/5 else 3/5

/-- `SuggestionPlanner._baseline_fdm`. -/
def baselineFDM (ctx : PlannerCtx) : List (String × ℚ) :=
  [("nozzle_temp", fdmNozzle ctx), ("bed_temp", fdmBed ctx),
   ("print_speed", fdmPrintSpeed ctx), ("travel_speed", fdmTravelSpeed ctx),
   ("accel", fdmAccel ctx), ("jerk", fdmJerk ctx), ("fan_speed", fdmFan ctx),
   ("flow_rate", 100), ("retraction_distance", fdmRetraction ctx)]

/-- `self.material.startswith("RESIN")`. -/
def resinExposure (ctx : PlannerCtx) : ℚ :=
  if "RESIN".data.isPrefixOf ctx.material.data then 23/10 else 2

/-- `SuggestionPlanner._baseline_resin`. -/
def baselineResin (ctx : PlannerCtx) : List (String × ℚ) :=
  [("exposure_time", resinExposure ctx), ("lift_speed", 60)]

/-- `spindle_rpm_range or [8000, 18000]` (an empty list is falsy). -/
def cncSpindleRange (ctx : PlannerCtx) : List ℚ :=
  if ctx.machine.spindle_rpm_range.isEmpty then [8000, 18000]
  else ctx.machine.spindle_rpm_range

def cncSpindle (ctx : PlannerCtx) : ℚ :=
  (cncSpindleRange ctx).sum / (((cncSpindleRange ctx).length : ℚ))

/-- `max_feed = ... or 6000; feed = float(max_feed) * 0.7 if max_feed
else 3000.0` — after the `or` the value is always truthy, so the 3000
arm of the source is dead. -/
def cncFeed (ctx : PlannerCtx) : ℚ := orElseQ ctx.machine.max_feed_mm_min 6000 * (7/10)

/-- Substring match on the rigidity class (`"industrial" in rigidity`,
`"light" in rigidity`). -/
def cncDoc (ctx : PlannerCtx) : ℚ :=
  let rigidity := lowerStr (orElseStr ctx.machine.rigidity_class "hobby")
  if containsStr rigidity "industrial" then 4
  else if containsStr rigidity "light" then 3
  else 2

/-- `SuggestionPlanner._baseline_cnc`. -/
def baselineCNC (ctx : PlannerCtx) : List (String × ℚ) :=
  [("spindle_rpm", cncSpindle ctx), ("feed_rate", cncFeed ctx), ("doc", cncDoc ctx),
   ("stepover", 40)]

/-- `SuggestionPlanner._baseline`: dispatch on the machine type (the
per-request cache of the source is pure memoisation). -/
def baselineOf (ctx : PlannerCtx) : List (String × ℚ) :=
  match ctx.machine.mtype with
  | some t =>
      if t = "MSLA" ∨ t = "SLA" then baselineResin ctx
      else if t = "CNC_Router" ∨ t = "CNC_Mill" then baselineCNC ctx
      else baselineFDM ctx
  | none => baselineFDM ctx

/-- Whether `_baseline` routes to the FDM table. -/
def isFDMBaseline (m : MachineProfile) : Bool :=
  match m.mtype with
  | some t => decide (t ≠ "MSLA" ∧ t ≠ "SLA" ∧ t ≠ "CNC_Router" ∧ t ≠ "CNC_Mill")
  | none => true

/-- Python dict indexing `baseline[key]`: raises `KeyError` on a missing
key. -/
def getKey (d : List (String × ℚ)) (k : String) : Except String ℚ :=
  match List.lookup k d with
  | some v => .ok v
  | none => .error ("KeyError: " ++ k)

/-- `SuggestionPlanner._build_suggestion`: clamp the adjustments that
require it, keep only surviving parameters, attach deltas against the
machine baseline, and append the clamp explanations beyond the tier note
to the rationale. -/
def buildSuggestion (ctx : PlannerCtx) (pred : Prediction) (adjs : List Adj)
    (risk why bnote anote : String) : Suggestion :=
  let clampInputs : List (String × PyVal) := adjs.filterMap fun a =>
    match a.target with
    | some t => if a.requires_clamp then some (a.param, t) else none
    | none => none
  let applied := clampToMachine ctx.machine clampInputs ctx.experience
  let changes : List SChange := adjs.filterMap fun a =>
    if a.requires_clamp ∧ (List.lookup a.param applied.parameters).isNone then none
    else
      let target? : Option PyVal :=
        if a.requires_clamp then List.lookup a.param applied.parameters else a.target
      match target? with
      | none => none
      | some tv =>
          let delta : Option ℚ :=
            match List.lookup a.param (baselineOf ctx), tv.toFloat? with
            | some bq, some tq => some (round3 (tq - bq))
            | _, _ => none
          some { param := a.param,
                 new_target := some (match tv.toFloat? with
                   | some q => PyVal.float q
                   | none => tv),
                 unit := a.unit, delta := delta, range_hint := a.range_hint }
  let suffix :=
    if applied.explanations.length > 1 then
      " " ++ String.intercalate " " applied.explanations.tail
    else ""
  { issue_id := pred.issue_id, changes := changes, why := why ++ suffix, risk := risk,
    confidence := pred.confidence, beginner_note := bnote, advanced_note := anote,
    clamped_to_machine_limits := applied.clamped_to_machine_limits }

/-- `SuggestionPlanner._stringing`. -/
def stringingSuggestion (ctx : PlannerCtx) (pred : Prediction) : Except String Suggestion := do
  let baseline := baselineOf ctx
  let nozzle ← getKey baseline "nozzle_temp"
  let retraction ← getKey baseline "retraction_distance"
  let travel ← getKey baseline "travel_speed"
  let supportsDrying := ctx.machine.supports_ams
  let adjustments : List Adj :=
    [{ param := "nozzle_temp", target := some (.float (nozzle - 10)), unit := some "C",
       range_hint := some (-15, -5), requires_clamp := true },
     { param := "retraction_distance", target := some (.float (retraction + 1)),
       unit := some "mm", range_hint := some (1/2, 3/2), requires_clamp := true },
     { param := "travel_speed", target := some (.float (travel + 10)), unit := some "mm/s",
       range_hint := some (5, 20), requires_clamp := true },
     { param := "drying_recommendation",
       target := some (.int (if supportsDrying then 0 else 1)), requires_clamp := false }]
  let why := "Stringing detected; reducing nozzle temperature and increasing retraction fights ooze."
    ++ (if supportsDrying then "" else " Include filament drying to remove absorbed moisture.")
  pure (buildSuggestion ctx pred adjustments "medium" why
    "Run a retraction test cube after lowering temperatures to confirm improvements."
    "Consider pressure advance or linear advance tuning if your slicer supports it.")

/-- `SuggestionPlanner._under_extrusion`. -/
def underExtrusionSuggestion (ctx : PlannerCtx) (pred : Prediction) :
    Except String Suggestion := do
  let baseline := baselineOf ctx
  let nozzle ← getKey baseline "nozzle_temp"
  let printSpeed ← getKey baseline "print_speed"
  let idex := ctx.machine.supports_idex || (ctxMotion ctx = "IDEX")
  let adjustments : List Adj :=
    [{ param := "nozzle_temp", target := some (.float (nozzle + 8)), unit := some "C",
       range_hint := some (5, 10), requires_clamp := true },
     { param := "print_speed", target := some (.float (printSpeed * (17/20))),
       unit := some "mm/s", range_hint := some (-20, -10), requires_clamp := true },
     { param := "flow_rate", target := some (.float 103), unit := some "%",
       range_hint := some (2, 5), requires_clamp := true }]
  let anote := "Run an extrusion multiplier calibration and inspect hotend for partial clogs."
    ++ (if idex then " Calibrate both toolheads to avoid mismatch between extruders." else "")
  pure (buildSuggestion ctx pred adjustments "medium"
    "Under-extrusion cues suggest raising melt capacity and slowing print speed for consistency."
    "Verify extruder gears are clean before increasing temperatures or flow." anote)

/-- `SuggestionPlanner._ringing`. -/
def ringingSuggestion (ctx : PlannerCtx) (pred : Prediction) : Except String Suggestion := do
  let baseline := baselineOf ctx
  let accel ← getKey baseline "accel"
  let jerk ← getKey baseline "jerk"
  let printSpeed ← getKey baseline "print_speed"
  let isBedslinger := ctxMotion ctx = "BedSlinger"
  let accelScale : ℚ := if isBedslinger then 3/5 else 4/5
  let jerkScale : ℚ := if isBedslinger then 13/20 else 17/20
  let adjustments : List Adj :=
    [{ param := "accel", target := some (.float (accel * accelScale)), unit := some "mm/s^2",
       range_hint := some (-3000, -500), requires_clamp := true },
     { param := "jerk", target := some (.float (jerk * jerkScale)), unit := some "mm/s",
       range_hint := some (-8, -2), requires_clamp := true },
     { param := "print_speed", target := some (.float (printSpeed * (9/10))),
       unit := some "mm/s", range_hint := some (-15, -5), requires_clamp := true }]
  let why := "Ghosting is mitigated by reducing accelerations and jerk, scaled to the motion system."
    ++ (if ctx.machine.supports_input_shaping then
        " Input shaping allows recovering speed after vibrations are controlled." else "")
  pure (buildSuggestion ctx pred adjustments "low" why
    "Tighten belts before lowering acceleration to keep motion crisp."
    "Capture resonance data with input shaping or accelerometer tools if available.")

/-- `SuggestionPlanner._resin_peel` (uses the resin baseline directly). -/
def resinPeelSuggestion (ctx : PlannerCtx) (pred : Prediction) : Except String Suggestion := do
  let baseline := baselineResin ctx
  let lift ← getKey baseline "lift_speed"
  let exposure ← getKey baseline "exposure_time"
  let adjustments : List Adj :=
    [{ param := "lift_speed", target := some (.float (lift * (17/20))), unit := some "mm/min",
       range_hint := some (-20, -5), requires_clamp := true },
     { param := "exposure_time", target := some (.float (exposure * (11/10))), unit := some "s",
       range_hint := some (5, 15), requires_clamp := true }]
  pure (buildSuggestion ctx pred adjustments "medium"
    "Peel artifacts benefit from slower lifts and slightly longer exposures to ensure adhesion."
    "Check vat film tension before adjusting lift speeds."
    "Balance exposure increases with resin manufacturer recommended maximums.")

/-- `SuggestionPlanner._cnc_chatter` (uses the CNC baseline directly). -/
def cncChatterSuggestion (ctx : PlannerCtx) (pred : Prediction) : Except String Suggestion := do
  let baseline := baselineCNC ctx
  let feed ← getKey baseline "feed_rate"
  let doc ← getKey baseline "doc"
  let spindle ← getKey baseline "spindle_rpm"
  let adjustments : List Adj :=
    [{ param := "feed_rate", target := some (.float (feed * (4/5))), unit := some "mm/min",
       range_hint := some (-25, -10), requires_clamp := true },
     { param := "doc", target := some (.float (doc * (7/10))), unit := some "mm",
       range_hint := some (-2, -1/2), requires_clamp := true },
     { param := "spindle_rpm", target := some (.float (spindle * (21/20))), unit := some "rpm",
       range_hint := some (5, 10), requires_clamp := true }]
  pure (buildSuggestion ctx pred adjustments "medium"
    "Reducing feed and depth of cut while slightly increasing spindle RPM mitigates chatter."
    "Ensure tool stick-out is minimized before cutting more slowly."
    "Dial in adaptive clearing strategies to maintain consistent chip load.")

/-- `SuggestionPlanner._general_best_practice`: total — the only handler
that guards its baseline reads. -/
def generalBestPractice (ctx : PlannerCtx) (pred : Prediction) : Suggestion :=
  let baseline := baselineOf ctx
  let adjustments : List Adj :=
    if (List.lookup "nozzle_temp" baseline).isSome then
      [{ param := "nozzle_temp",
         target := (List.lookup "nozzle_temp" baseline).map fun q => PyVal.float q,
         unit := some "C", range_hint := some (0, 0), requires_clamp := true },
       { param := "bed_temp",
         target := (List.lookup "bed_temp" baseline).map fun q => PyVal.float q,
         unit := some "C", range_hint := some (0, 0), requires_clamp := true }]
    else []
  buildSuggestion ctx pred adjustments "low"
    "Providing general tuning baselines because the model returned low confidence."
    "Re-run calibration prints (flow cube, temperature tower) to gather more data."
    "Capture higher-resolution photos and include notes about materials for better results."

/-- `SuggestionPlanner._handler_for_issue` applied to a prediction:
substring dispatch on the lowercased issue id. -/
def handleIssue (ctx : PlannerCtx) (issue : String) (pred : Prediction) :
    Except String Suggestion :=
  let lid := lowerStr issue
  if containsStr lid "string" then stringingSuggestion ctx pred
  else if containsStr lid "under" then underExtrusionSuggestion ctx pred
  else if containsStr lid "ring" then ringingSuggestion ctx pred
  else if containsStr lid "peel" then resinPeelSuggestion ctx pred
  else if containsStr lid "chatter" then cncChatterSuggestion ctx pred
  else .ok (generalBestPractice ctx pred)

/-- The `low_confidence` flag of `SuggestionPlanner.plan`: nonempty and
all confidences below 0.5, overridden to true on an empty list. -/
def planLowConfidence (preds : List Prediction) : Bool :=
  if preds.isEmpty then true
  else !preds.isEmpty && preds.all fun p => decide (p.confidence < 1/2)

/-- `SuggestionPlanner.plan`: the low-confidence policy branch
substitutes one synthetic `general_tuning` suggestion (confidence 0.45);
otherwise one handler call per prediction, returning the (false) flag. -/
def plan (ctx : PlannerCtx) (preds : List Prediction) :
    Except String (List Suggestion × Bool) :=
  if planLowConfidence preds then
    .ok ([generalBestPractice ctx (Prediction.mk "general_tuning" (9/20))], true)
  else
    (preds.mapM fun p => handleIssue ctx p.issue_id p).map
      fun suggs => (suggs, planLowConfidence preds)

/-! ## Theorems -/

/-! ### Facts about round-half-to-even -/

theorem floor_le_rhe (q : ℚ) : ⌊q⌋ ≤ rhe q := by
  unfold rhe; split_ifs <;> omega

theorem rhe_le_floor_add_one (q : ℚ) : rhe q ≤ ⌊q⌋ + 1 := by
  unfold rhe; split_ifs <;> omega

theorem rhe_intCast (n : ℤ) : rhe (n : ℚ) = n := by
  unfold rhe
  rw [Int.floor_intCast]
  simp

theorem rhe_mono {a b : ℚ} (h : a ≤ b) : rhe a ≤ rhe b := by
  rcases lt_or_eq_of_le (Int.floor_le_floor h) with hf | hf
  · have h1 := rhe_le_floor_add_one a
    have h2 := floor_le_rhe b
    omega
  · have ha0 := Int.floor_le a
    have hb0 := Int.floor_le b
    unfold rhe
    rw [← hf]
    split_ifs with h1 h2 h3 h4 h5 h6 h7 h8 <;> try omega
    all_goals (exfalso; try omega)
    all_goals linarith

theorem rhe_le_half (q : ℚ) : (rhe q : ℚ) ≤ q + 1/2 := by
  have h0 := Int.floor_le q
  have h1 := Int.lt_floor_add_one q
  unfold rhe
  split_ifs with h2 h3 h4 <;> push_cast <;> linarith

theorem rhe_eq_add_half {q : ℚ} (h : (rhe q : ℚ) = q + 1/2) :
    q - ⌊q⌋ = 1/2 ∧ ⌊q⌋ % 2 = 1 := by
  have h0 := Int.floor_le q
  have h1 := Int.lt_floor_add_one q
  unfold rhe at h
  split_ifs at h with h2 h3 h4
  · exfalso; linarith
  · exfalso; push_cast at h; linarith
  · exfalso; linarith
  · push_cast at h
    constructor
    · linarith
    · omega

/-- The parity fact behind exact unit-square containment of rounded
boxes: two exact half ties cannot both round up when the target total is
even, because their floors would be two odd integers with an odd sum. -/
theorem rhe_add_le {a b : ℚ} (h : a + b ≤ 1000) : rhe a + rhe b ≤ 1000 := by
  by_contra hc
  push_neg at hc
  have ha := rhe_le_half a
  have hb := rhe_le_half b
  have hsum : (1001 : ℚ) ≤ (rhe a : ℚ) + (rhe b : ℚ) := by
    have : (1001 : ℤ) ≤ rhe a + rhe b := by omega
    exact_mod_cast this
  have hEa : (rhe a : ℚ) = a + 1/2 := by linarith
  have hEb : (rhe b : ℚ) = b + 1/2 := by linarith
  obtain ⟨hfa, hpa⟩ := rhe_eq_add_half hEa
  obtain ⟨hfb, hpb⟩ := rhe_eq_add_half hEb
  have hab : a + b = 1000 := by linarith
  have : ((⌊a⌋ : ℚ) + (⌊b⌋ : ℚ)) = 999 := by linarith
  have hz : ⌊a⌋ + ⌊b⌋ = 999 := by exact_mod_cast this
  omega

theorem round3_mono {a b : ℚ} (h : a ≤ b) : round3 a ≤ round3 b := by
  unfold round3
  have h1 := rhe_mono (by linarith : 1000 * a ≤ 1000 * b)
  have h2 : ((rhe (1000 * a) : ℚ)) ≤ (rhe (1000 * b) : ℚ) := by exact_mod_cast h1
  linarith

theorem round3_intCast (n : ℤ) : round3 (n : ℚ) = n := by
  unfold round3
  have h : (1000 : ℚ) * (n : ℚ) = ((1000 * n : ℤ) : ℚ) := by push_cast; ring
  rw [h, rhe_intCast]
  push_cast
  ring

theorem round3_idem (a : ℚ) : round3 (round3 a) = round3 a := by
  unfold round3
  have h : (1000 : ℚ) * ((rhe (1000 * a) : ℚ) / 1000) = ((rhe (1000 * a) : ℤ) : ℚ) := by
    field_simp
  rw [h, rhe_intCast]

theorem intCast_le_round3 {n : ℤ} {a : ℚ} (h : (n : ℚ) ≤ a) : (n : ℚ) ≤ round3 a := by
  unfold round3
  have h1 : ((1000 * n : ℤ) : ℚ) ≤ 1000 * a := by push_cast; linarith
  have h2 := rhe_mono h1
  rw [rhe_intCast] at h2
  have h3 : ((1000 * n : ℤ) : ℚ) ≤ (rhe (1000 * a) : ℚ) := by exact_mod_cast h2
  push_cast at h3
  linarith

theorem round3_le_intCast {n : ℤ} {a : ℚ} (h : a ≤ (n : ℚ)) : round3 a ≤ (n : ℚ) := by
  unfold round3
  have h1 : 1000 * a ≤ ((1000 * n : ℤ) : ℚ) := by push_cast; linarith
  have h2 := rhe_mono h1
  rw [rhe_intCast] at h2
  have h3 : (rhe (1000 * a) : ℚ) ≤ ((1000 * n : ℤ) : ℚ) := by exact_mod_cast h2
  push_cast at h3
  linarith

theorem round3_nonneg {a : ℚ} (h : 0 ≤ a) : 0 ≤ round3 a := by
  have h1 : ((0 : ℤ) : ℚ) ≤ a := by exact_mod_cast h
  have := intCast_le_round3 h1
  exact_mod_cast this

theorem round3_le_one {a : ℚ} (h : a ≤ 1) : round3 a ≤ 1 := by
  have h1 : a ≤ ((1 : ℤ) : ℚ) := by exact_mod_cast h
  have := round3_le_intCast h1
  exact_mod_cast this

theorem round3_add_le_one {a b : ℚ} (h : a + b ≤ 1) : round3 a + round3 b ≤ 1 := by
  unfold round3
  have h1 : 1000 * a + 1000 * b ≤ 1000 := by linarith
  have h2 := rhe_add_le h1
  have h3 : (rhe (1000 * a) : ℚ) + (rhe (1000 * b) : ℚ) ≤ 1000 := by exact_mod_cast h2
  linarith

/-! ### Facts about the numeric clamp -/

theorem clampMin_ge {mn : Option ℚ} {b : ℚ} (q : ℚ) (h : mn = some b) : b ≤ clampMin mn q := by
  subst h
  simp only [clampMin]
  split_ifs with h1
  · exact le_refl b
  · exact le_of_not_lt h1

theorem clampQ_le {mn mx : Option ℚ} {M : ℚ} (q : ℚ) (h : mx = some M) : clampQ mn mx q ≤ M := by
  subst h
  simp only [clampQ]
  split_ifs with h1
  · exact le_refl M
  · exact le_of_not_lt h1

theorem le_clampQ {mn mx : Option ℚ} {b : ℚ} (q : ℚ) (h : mn = some b)
    (hbM : ∀ M, mx = some M → b ≤ M) : b ≤ clampQ mn mx q := by
  have h1 := clampMin_ge q h
  cases mx with
  | none => simpa [clampQ] using h1
  | some M =>
      have h2 := hbM M rfl
      simp only [clampQ]
      split_ifs with h3
      · exact h2
      · exact h1

theorem clampQ_min_cases {mn mx : Option ℚ} {b : ℚ} (q : ℚ) (h : mn = some b) :
    b ≤ clampQ mn mx q ∨ ∃ M, mx = some M ∧ clampQ mn mx q = M := by
  have h1 := clampMin_ge q h
  cases mx with
  | none => exact Or.inl (by simpa [clampQ] using h1)
  | some M =>
      simp only [clampQ]
      split_ifs with h2
      · exact Or.inr ⟨M, rfl, rfl⟩
      · exact Or.inl h1

/-- Re-clamping a rounded clamped value and rounding again is the
identity: the key step of idempotence. -/
theorem round_clamp_fix {mn mx : Option ℚ} {c : ℚ}
    (hU : ∀ M, mx = some M → c ≤ M)
    (hL : ∀ b, mn = some b → b ≤ c ∨ ∃ M, mx = some M ∧ c = M) :
    round3 (clampQ mn mx (round3 c)) = round3 c := by
  have hidem : round3 (round3 c) = round3 c := round3_idem c
  cases hmn : mn with
  | none =>
      cases hmx : mx with
      | none => simpa [clampQ, clampMin] using hidem
      | some M =>
          have hcM : c ≤ M := hU M hmx
          simp only [clampQ, clampMin]
          split_ifs with h1
          · have h2 : round3 c ≤ round3 M := round3_mono hcM
            have h3 : round3 M ≤ round3 (round3 c) := round3_mono (le_of_lt h1)
            rw [hidem] at h3
            linarith
          · exact hidem
  | some b =>
      rcases hL b hmn with hbc | ⟨M, hM, hcM⟩
      · cases hmx : mx with
        | none =>
            simp only [clampQ, clampMin]
            split_ifs with h1
            · have h2 : round3 b ≤ round3 c := round3_mono hbc
              have h3 : round3 (round3 c) ≤ round3 b := round3_mono (le_of_lt h1)
              rw [hidem] at h3
              linarith
            · exact hidem
        | some M =>
            have hcM : c ≤ M := hU M hmx
            have hbM : b ≤ M := le_trans hbc hcM
            simp only [clampQ, clampMin]
            split_ifs with h1 h2 h3
            · exfalso; linarith
            · have h4 : round3 b ≤ round3 c := round3_mono hbc
              have h5 : round3 (round3 c) ≤ round3 b := round3_mono (le_of_lt h1)
              rw [hidem] at h5
              linarith
            · have h4 : round3 c ≤ round3 M := round3_mono hcM
              have h5 : round3 M ≤ round3 (round3 c) := round3_mono (le_of_lt h3)
              rw [hidem] at h5
              linarith
            · exact hidem
      · rw [hM]
        simp only [clampQ, clampMin]
        split_ifs with h1 h2 h3
        · rw [hcM]
        · have h4 : round3 b ≤ round3 c := by rw [hcM]; exact round3_mono (le_of_not_lt h2)
          have h5 : round3 (round3 c) ≤ round3 b := round3_mono (le_of_lt h1)
          rw [hidem] at h5
          linarith
        · rw [hcM]
        · exact hidem

theorem clampMin_eq_of_notFired {mn : Option ℚ} {q : ℚ} (h : minFiredB mn q = false) :
    clampMin mn q = q := by
  cases mn with
  | none => rfl
  | some b =>
      simp only [minFiredB, decide_eq_false_iff_not] at h
      simp [clampMin, h]

theorem le_of_maxFiredB_false {mx : Option ℚ} {M q1 : ℚ} (hmx : mx = some M)
    (h : maxFiredB mx q1 = false) : q1 ≤ M := by
  subst hmx
  simp only [maxFiredB, decide_eq_false_iff_not] at h
  exact le_of_not_lt h

theorem le_of_minFiredB_false {mn : Option ℚ} {b q : ℚ} (hmn : mn = some b)
    (h : minFiredB mn q = false) : b ≤ q := by
  subst hmn
  simp only [minFiredB, decide_eq_false_iff_not] at h
  exact le_of_not_lt h

/-! ### Facts about `clampValue` -/

theorem clampValue_float (m : MachineProfile) (factor : ℚ) (k : String) (q : ℚ) :
    (clampValue m factor k (.float q)).1
      = .float (round3 (clampQ (boundsFor m k).1
          (effectiveMax (boundsFor m k).2 factor) q)) := by
  simp [clampValue, clampNum]

theorem clampValue_int_fired (m : MachineProfile) (factor : ℚ) (k : String) (n : ℤ)
    (hf : (minFiredB (boundsFor m k).1 (n : ℚ)
      || maxFiredB (effectiveMax (boundsFor m k).2 factor)
           (clampMin (boundsFor m k).1 (n : ℚ))) = true) :
    (clampValue m factor k (.int n)).1
      = .float (round3 (clampQ (boundsFor m k).1
          (effectiveMax (boundsFor m k).2 factor) (n : ℚ))) := by
  simp [clampValue, clampNum, hf]

theorem clampValue_int_unfired (m : MachineProfile) (factor : ℚ) (k : String) (n : ℤ)
    (hf : (minFiredB (boundsFor m k).1 (n : ℚ)
      || maxFiredB (effectiveMax (boundsFor m k).2 factor)
           (clampMin (boundsFor m k).1 (n : ℚ))) = false) :
    (clampValue m factor k (.int n)).1 = .int n := by
  simp [clampValue, clampNum, hf]

theorem clampValue_fst_idem (m : MachineProfile) (factor : ℚ) (k : String) (v : PyVal) :
    (clampValue m factor k (clampValue m factor k v).1).1 = (clampValue m factor k v).1 := by
  have hfix : ∀ q : ℚ,
      (clampValue m factor k (.float (round3 (clampQ (boundsFor m k).1
        (effectiveMax (boundsFor m k).2 factor) q)))).1
      = .float (round3 (clampQ (boundsFor m k).1
          (effectiveMax (boundsFor m k).2 factor) q)) := by
    intro q
    rw [clampValue_float]
    have hU : ∀ M, effectiveMax (boundsFor m k).2 factor = some M →
        clampQ (boundsFor m k).1 (effectiveMax (boundsFor m k).2 factor) q ≤ M :=
      fun M hM => clampQ_le q hM
    have hL : ∀ b, (boundsFor m k).1 = some b →
        b ≤ clampQ (boundsFor m k).1 (effectiveMax (boundsFor m k).2 factor) q ∨
        ∃ M, effectiveMax (boundsFor m k).2 factor = some M ∧
          clampQ (boundsFor m k).1 (effectiveMax (boundsFor m k).2 factor) q = M :=
      fun b hb => clampQ_min_cases q hb
    have h := round_clamp_fix hU hL
    rw [h]
  cases v with
  | str s => simp [clampValue]
  | float q =>
      rw [clampValue_float]
      exact hfix q
  | int n =>
      by_cases hf : (minFiredB (boundsFor m k).1 (n : ℚ)
          || maxFiredB (effectiveMax (boundsFor m k).2 factor)
               (clampMin (boundsFor m k).1 (n : ℚ))) = true
      · rw [clampValue_int_fired m factor k n hf]
        exact hfix (n : ℚ)
      · rw [clampValue_int_unfired m factor k n (by simpa using hf)]
        exact clampValue_int_unfired m factor k n (by simpa using hf)

theorem clampValue_le_max {m : MachineProfile} {factor : ℚ} {k : String} {v : PyVal} {M q : ℚ}
    (hM : effectiveMax (boundsFor m k).2 factor = some M)
    (hq : ((clampValue m factor k v).1).toFloat? = some q) : q ≤ round3 M := by
  cases v with
  | str s => simp [clampValue, PyVal.toFloat?] at hq
  | float q0 =>
      rw [clampValue_float] at hq
      simp only [PyVal.toFloat?, Option.some.injEq] at hq
      subst hq
      exact round3_mono (clampQ_le q0 hM)
  | int n =>
      by_cases hf : (minFiredB (boundsFor m k).1 (n : ℚ)
          || maxFiredB (effectiveMax (boundsFor m k).2 factor)
               (clampMin (boundsFor m k).1 (n : ℚ))) = true
      · rw [clampValue_int_fired m factor k n hf] at hq
        simp only [PyVal.toFloat?, Option.some.injEq] at hq
        subst hq
        exact round3_mono (clampQ_le (n : ℚ) hM)
      · have hf' : (minFiredB (boundsFor m k).1 (n : ℚ)
            || maxFiredB (effectiveMax (boundsFor m k).2 factor)
                 (clampMin (boundsFor m k).1 (n : ℚ))) = false := by simpa using hf
        rw [clampValue_int_unfired m factor k n hf'] at hq
        simp only [PyVal.toFloat?, Option.some.injEq] at hq
        subst hq
        have h1 := (Bool.or_eq_false_iff.mp hf').1
        have h2 := (Bool.or_eq_false_iff.mp hf').2
        have h3 := clampMin_eq_of_notFired h1
        have h4 := le_of_maxFiredB_false hM h2
        rw [h3] at h4
        exact intCast_le_round3 h4

theorem clampValue_ge_min {m : MachineProfile} {factor : ℚ} {k : String} {v : PyVal} {b q : ℚ}
    (hb : (boundsFor m k).1 = some b)
    (hbM : ∀ M, effectiveMax (boundsFor m k).2 factor = some M → b ≤ M)
    (hq : ((clampValue m factor k v).1).toFloat? = some q) : round3 b ≤ q := by
  cases v with
  | str s => simp [clampValue, PyVal.toFloat?] at hq
  | float q0 =>
      rw [clampValue_float] at hq
      simp only [PyVal.toFloat?, Option.some.injEq] at hq
      subst hq
      exact round3_mono (le_clampQ q0 hb hbM)
  | int n =>
      by_cases hf : (minFiredB (boundsFor m k).1 (n : ℚ)
          || maxFiredB (effectiveMax (boundsFor m k).2 factor)
               (clampMin (boundsFor m k).1 (n : ℚ))) = true
      · rw [clampValue_int_fired m factor k n hf] at hq
        simp only [PyVal.toFloat?, Option.some.injEq] at hq
        subst hq
        exact round3_mono (le_clampQ (n : ℚ) hb hbM)
      · have hf' : (minFiredB (boundsFor m k).1 (n : ℚ)
            || maxFiredB (effectiveMax (boundsFor m k).2 factor)
                 (clampMin (boundsFor m k).1 (n : ℚ))) = false := by simpa using hf
        rw [clampValue_int_unfired m factor k n hf'] at hq
        simp only [PyVal.toFloat?, Option.some.injEq] at hq
        subst hq
        have h1 := (Bool.or_eq_false_iff.mp hf').1
        have h5 := le_of_minFiredB_false hb h1
        exact round3_le_intCast h5

/-! ### List helpers -/

theorem filterMap_ext_mem {α β : Type} {f g : α → Option β} :
    ∀ l : List α, (∀ a ∈ l, f a = g a) → l.filterMap f = l.filterMap g := by
  intro l
  induction l with
  | nil => intro _; rfl
  | cons x xs ih =>
      intro h
      have hx := h x (List.mem_cons_self x xs)
      have ht := ih fun a ha => h a (List.mem_cons_of_mem x ha)
      cases hgx : g x <;> simp [List.filterMap_cons, hx, hgx, ht]

theorem mem_insertSortedStr {a s : String} {l : List String} :
    a ∈ insertSortedStr s l ↔ a = s ∨ a ∈ l := by
  induction l with
  | nil => simp [insertSortedStr]
  | cons x xs ih =>
      simp only [insertSortedStr]
      split_ifs with h1 h2
      · simp [List.mem_cons]
      · subst h2
        simp [List.mem_cons]
      · simp only [List.mem_cons, ih]
        tauto

theorem pairwise_insertSortedStr {s : String} {l : List String}
    (h : List.Pairwise (fun a b => a < b) l) :
    List.Pairwise (fun a b => a < b) (insertSortedStr s l) := by
  induction l with
  | nil => simp [insertSortedStr]
  | cons x xs ih =>
      rcases List.pairwise_cons.mp h with ⟨hx, hxs⟩
      simp only [insertSortedStr]
      split_ifs with h1 h2
      · refine List.pairwise_cons.mpr ⟨?_, h⟩
        intro z hz
        rcases List.mem_cons.mp hz with rfl | hz
        · exact h1
        · exact lt_trans h1 (hx z hz)
      · exact h
      · refine List.pairwise_cons.mpr ⟨?_, ih hxs⟩
        intro z hz
        rcases mem_insertSortedStr.mp hz with rfl | hz
        · rcases lt_trichotomy z x with hc | hc | hc
          · exact absurd hc h1
          · exact absurd hc h2
          · exact hc
        · exact hx z hz

theorem pairwise_sortedDedup (l : List String) :
    List.Pairwise (fun a b => a < b) (sortedDedup l) := by
  unfold sortedDedup
  suffices h : ∀ acc, List.Pairwise (fun a b : String => a < b) acc →
      List.Pairwise (fun a b : String => a < b)
        (l.foldl (fun acc s => insertSortedStr s acc) acc) from
    h [] (by simp)
  induction l with
  | nil => intro acc h; exact h
  | cons x xs ih =>
      intro acc h
      exact ih _ (pairwise_insertSortedStr h)

theorem mem_sortedDedup {a : String} {l : List String} (h : a ∈ l) : a ∈ sortedDedup l := by
  unfold sortedDedup
  suffices hgen : ∀ acc, a ∈ acc ∨ a ∈ l →
      a ∈ l.foldl (fun acc s => insertSortedStr s acc) acc from
    hgen [] (Or.inr h)
  clear h
  induction l with
  | nil =>
      intro acc h
      rcases h with h | h
      · exact h
      · exact absurd h (List.not_mem_nil a)
  | cons x xs ih =>
      intro acc h
      rcases h with h | h
      · exact ih _ (Or.inl (mem_insertSortedStr.mpr (Or.inr h)))
      · rcases List.mem_cons.mp h with rfl | h
        · exact ih _ (Or.inl (mem_insertSortedStr.mpr (Or.inl rfl)))
        · exact ih _ (Or.inr h)

theorem strList_contains_iff {l : List String} {a : String} : l.contains a = true ↔ a ∈ l := by
  simp

/-! ### Claim theorems for the clamp engine -/

/-- C1 (counterexample): the claim "every numeric value returned by
`clamp_to_machine` is at least its declared minimum bound" fails when the
declared minimum exceeds the margin-adjusted maximum: a machine whose
material presets give a minimum nozzle temperature of 290 and whose
maximum is 300 yields, at the Beginner tier (factor 0.85, effective max
255), a clamped nozzle temperature of 255, strictly below the declared
minimum 290 — the max clamp runs after the min clamp and wins. -/
theorem clamp_min_bound_violated :
    (boundsFor
        { max_nozzle_temp_c := some 300,
          material_presets := [("PLA", [("nozzle_c", [290, 300])])] } "nozzle_temp").1
      = some 290 ∧
    List.lookup "nozzle_temp"
        (clampToMachine
          { max_nozzle_temp_c := some 300,
            material_presets := [("PLA", [("nozzle_c", [290, 300])])] }
          [("nozzle_temp", PyVal.float 400)] "Beginner").parameters
      = some (PyVal.float 255) ∧
    ¬ ((290 : ℚ) ≤ 255) := by
  refine ⟨by with_unfolding_all decide, by with_unfolding_all decide, by norm_num⟩

/-- C1 (amended): every numeric value in the `parameters` field returned
by `clamp_to_machine` is at most the three-decimal rounding of (declared
max × tier factor) whenever a maximum exists, and at least the rounding
of the declared minimum whenever a minimum exists and does not exceed
the margin-adjusted maximum.  (The roundings appear because the engine
rounds every stored float to three decimals; when the minimum exceeds
the adjusted maximum, the maximum wins, per the counterexample.) -/
theorem clamp_bounds_amended (m : MachineProfile) (experience : String)
    (ps : List (String × PyVal)) :
    ∀ kv ∈ (clampToMachine m ps experience).parameters, ∀ q, kv.2.toFloat? = some q →
      (∀ M, effectiveMax (boundsFor m kv.1).2 (settingsFor experience).max_factor = some M →
        q ≤ round3 M) ∧
      (∀ b, (boundsFor m kv.1).1 = some b →
        (∀ M, effectiveMax (boundsFor m kv.1).2 (settingsFor experience).max_factor = some M →
          b ≤ M) →
        round3 b ≤ q) := by
  intro kv hkv q hq
  simp only [clampToMachine] at hkv
  rcases List.mem_filterMap.mp hkv with ⟨p, hp, hf⟩
  by_cases hv : (settingsFor experience).allowed.contains p.1 = true
  · rw [if_pos hv] at hf
    have h := Option.some.inj hf
    subst h
    constructor
    · intro M hM
      exact clampValue_le_max hM hq
    · intro b hb hbM
      exact clampValue_ge_min hb hbM hq
  · rw [if_neg hv] at hf
    exact absurd hf (by simp)

/-- C1 (witness): at the Intermediate tier on a machine with max nozzle
temperature 300 and preset minimum 200, the clamped value 285 respects
both rounded bounds. -/
theorem clamp_bounds_amended_witness :
    ((285 : ℚ) ≤ round3 285) ∧ (round3 200 ≤ (285 : ℚ)) := by
  have h := clamp_bounds_amended
    { max_nozzle_temp_c := some 300,
      material_presets := [("PLA", [("nozzle_c", [200, 300])])] }
    "Intermediate"
    [("nozzle_temp", PyVal.float 400)]
    ("nozzle_temp", PyVal.float 285)
    (by with_unfolding_all decide) 285 (by with_unfolding_all decide)
  have hemax : effectiveMax
      (boundsFor
        { max_nozzle_temp_c := some 300,
          material_presets := [("PLA", [("nozzle_c", [200, 300])])] } "nozzle_temp").2
      (settingsFor "Intermediate").max_factor = some 285 := by
    with_unfolding_all decide
  have hmin : (boundsFor
      { max_nozzle_temp_c := some 300,
        material_presets := [("PLA", [("nozzle_c", [200, 300])])] } "nozzle_temp").1
      = some 200 := by
    with_unfolding_all decide
  constructor
  · exact h.1 285 hemax
  · refine h.2 200 hmin ?_
    intro M hM
    rw [hemax] at hM
    have hM' : (285 : ℚ) = M := Option.some.inj hM
    rw [← hM']
    norm_num

/-- C2: for a machine with max nozzle temperature 300 and a safe print
speed range of 10 to 250, clamping nozzle 400 and print speed 400 at the
Intermediate tier (factor 0.95) yields nozzle 285 and print speed 237.5
(= 475/2), and reports that clamping fired. -/
theorem clamp_scenario_intermediate :
    (clampToMachine
        { max_nozzle_temp_c := some 300,
          safe_speed_ranges := [("print", [PyVal.float 10, PyVal.float 250])] }
        [("nozzle_temp", PyVal.float 400), ("print_speed", PyVal.float 400)]
        "Intermediate").parameters
      = [("nozzle_temp", PyVal.float 285), ("print_speed", PyVal.float (475/2))] ∧
    (clampToMachine
        { max_nozzle_temp_c := some 300,
          safe_speed_ranges := [("print", [PyVal.float 10, PyVal.float 250])] }
        [("nozzle_temp", PyVal.float 400), ("print_speed", PyVal.float 400)]
        "Intermediate").clamped_to_machine_limits = true := by
  constructor
  · with_unfolding_all decide
  · with_unfolding_all decide

/-- C3: clamping is idempotent — re-clamping the `parameters` field of a
clamp result, at the same tier and machine, returns it unchanged. -/
theorem clampToMachine_idempotent (m : MachineProfile) (experience : String)
    (ps : List (String × PyVal)) :
    (clampToMachine m (clampToMachine m ps experience).parameters experience).parameters
      = (clampToMachine m ps experience).parameters := by
  simp only [clampToMachine]
  rw [List.filterMap_filterMap]
  apply filterMap_ext_mem
  intro p _
  by_cases hv : (settingsFor experience).allowed.contains p.1 = true
  · simp [hv, clampValue_fst_idem]
  · simp [hv]

/-- C4: at the Beginner tier, every returned parameter key belongs to
the allow-list (nozzle temperature, bed temperature, print speed, fan
speed, flow rate); every input key outside that set is absent from the
returned parameters and appears in the `hidden_parameters` list, which
is strictly sorted. -/
theorem clamp_beginner_allowlist (m : MachineProfile) (ps : List (String × PyVal)) :
    (∀ kv ∈ (clampToMachine m ps "Beginner").parameters,
        kv.1 ∈ ["nozzle_temp", "bed_temp", "print_speed", "fan_speed", "flow_rate"]) ∧
    (∀ kv ∈ ps,
        kv.1 ∉ ["nozzle_temp", "bed_temp", "print_speed", "fan_speed", "flow_rate"] →
          (∀ kv2 ∈ (clampToMachine m ps "Beginner").parameters, kv2.1 ≠ kv.1) ∧
          kv.1 ∈ (clampToMachine m ps "Beginner").hidden_parameters) ∧
    List.Pairwise (fun a b => a < b) (clampToMachine m ps "Beginner").hidden_parameters := by
  have hset : settingsFor "Beginner" = beginnerSettings := rfl
  have hmem : ∀ kv ∈ (clampToMachine m ps "Beginner").parameters,
      kv.1 ∈ ["nozzle_temp", "bed_temp", "print_speed", "fan_speed", "flow_rate"] := by
    intro kv hkv
    simp only [clampToMachine, hset] at hkv
    rcases List.mem_filterMap.mp hkv with ⟨p, _, hf⟩
    by_cases hv : beginnerSettings.allowed.contains p.1 = true
    · rw [if_pos hv] at hf
      have hkv1 : kv.1 = p.1 := by cases hf; rfl
      rw [hkv1]
      have : beginnerSettings.allowed.contains p.1 =
          (["nozzle_temp", "bed_temp", "print_speed", "fan_speed", "flow_rate"].contains p.1) := rfl
      rw [this] at hv
      exact strList_contains_iff.mp hv
    · rw [if_neg hv] at hf
      exact absurd hf (by simp)
  refine ⟨hmem, ?_, ?_⟩
  · intro kv hkv hout
    constructor
    · intro kv2 hkv2 heq
      exact hout (heq ▸ hmem kv2 hkv2)
    · simp only [clampToMachine, hset]
      apply mem_sortedDedup
      apply List.mem_filterMap.mpr
      refine ⟨kv, hkv, ?_⟩
      have hvf : beginnerSettings.allowed.contains kv.1 = false := by
        have : beginnerSettings.allowed.contains kv.1 =
            (["nozzle_temp", "bed_temp", "print_speed", "fan_speed", "flow_rate"].contains kv.1) := rfl
        rw [this]
        by_contra hcon
        have : (["nozzle_temp", "bed_temp", "print_speed", "fan_speed",
            "flow_rate"].contains kv.1) = true := by
          revert hcon
          cases (["nozzle_temp", "bed_temp", "print_speed", "fan_speed",
              "flow_rate"].contains kv.1) <;> simp
        exact hout (strList_contains_iff.mp this)
      rw [hvf]
      simp
  · simp only [clampToMachine]
    exact pairwise_sortedDedup _

/-- C4 (witness): on an empty machine profile, Beginner-tier clamping of
an `accel` and a `nozzle_temp` entry keeps `nozzle_temp` (a member of
the allow-list) and hides `accel`. -/
theorem clamp_beginner_allowlist_witness :
    ("nozzle_temp" : String) ∈
        ["nozzle_temp", "bed_temp", "print_speed", "fan_speed", "flow_rate"] ∧
    "accel" ∈ (clampToMachine {}
        [("accel", PyVal.float 100), ("nozzle_temp", PyVal.float 200)]
        "Beginner").hidden_parameters := by
  have h := clamp_beginner_allowlist {}
    [("accel", PyVal.float 100), ("nozzle_temp", PyVal.float 200)]
  constructor
  · exact h.1 ("nozzle_temp", PyVal.float 200) (by with_unfolding_all decide)
  · exact (h.2.1 ("accel", PyVal.float 100) (by with_unfolding_all decide)
      (by with_unfolding_all decide)).2

/-! ### Facts about the issue delta table -/

theorem lookup_dictSet_ne {d : List (String × ℚ)} {k k' : String} {v : ℚ} (h : k' ≠ k) :
    List.lookup k' (dictSet d k v) = List.lookup k' d := by
  induction d with
  | nil => rfl
  | cons p ps ih =>
      simp only [dictSet, List.map_cons] at *
      by_cases hp : p.1 = k
      · rw [if_pos hp]
        have h1 : (k' == k) = false := by simp [h]
        have h2 : (k' == p.1) = false := by simp [hp, h]
        simp [List.lookup, h1, h2, ih]
      · rw [if_neg hp]
        by_cases hk : k' = p.1
        · simp [List.lookup, hk]
        · have h2 : (k' == p.1) = false := by simp [hk]
          simp [List.lookup, h2, ih]

theorem lookup_dictSet_self {d : List (String × ℚ)} {k : String} {v w : ℚ}
    (h : List.lookup k d = some w) : List.lookup k (dictSet d k v) = some v := by
  induction d with
  | nil => simp [List.lookup] at h
  | cons p ps ih =>
      simp only [dictSet, List.map_cons]
      by_cases hp : p.1 = k
      · rw [if_pos hp]
        simp [List.lookup]
      · rw [if_neg hp]
        have h2 : (k == p.1) = false := by
          simp only [beq_eq_false_iff_ne, ne_eq]
          intro hk
          exact hp hk.symm
        simp only [List.lookup, h2] at h ⊢
        exact ih h

theorem lookup_deltaStep_ne {adjusted : List (String × ℚ)} {kd : String × ℚ} {k' : String}
    (h : k' ≠ kd.1) :
    List.lookup k' (deltaStep adjusted kd) = List.lookup k' adjusted := by
  unfold deltaStep
  cases hl : List.lookup kd.1 adjusted with
  | none => rfl
  | some v => exact lookup_dictSet_ne h

theorem lookup_deltaStep_self (kd : String × ℚ) {adjusted : List (String × ℚ)} {v : ℚ}
    (h : List.lookup kd.1 adjusted = some v) :
    List.lookup kd.1 (deltaStep adjusted kd)
      = some (round3 (if kd.1 = "fan_speed" ∨ kd.1 = "flow_rate" then max 0 (min 100 (v + kd.2))
          else if kd.1 = "retraction_distance" then max 0 (v + kd.2) else max 0 (v + kd.2))) := by
  unfold deltaStep
  rw [h]
  exact lookup_dictSet_self h

/-- C6: the Baseline Planner's delta table is applied additively: for
issue `stringing` a baseline nozzle temperature of 210 becomes 202
(delta −8); the fan, retraction and travel deltas (+12, +0.2, +10) are
applied to their own baselines, percentages restricted to 0–100 and the
rest to nonnegative, all rounded to three decimals; an issue absent from
the table leaves the targets unchanged. -/
theorem issue_deltas_stringing (targets : List (String × ℚ)) :
    (List.lookup "nozzle_temp" targets = some 210 →
      List.lookup "nozzle_temp" (applyIssueDeltas targets "stringing") = some 202) ∧
    (∀ f, List.lookup "fan_speed" targets = some f →
      List.lookup "fan_speed" (applyIssueDeltas targets "stringing")
        = some (round3 (max 0 (min 100 (f + 12))))) ∧
    (∀ r, List.lookup "retraction_distance" targets = some r →
      List.lookup "retraction_distance" (applyIssueDeltas targets "stringing")
        = some (round3 (max 0 (r + 1/5)))) ∧
    (∀ t, List.lookup "travel_speed" targets = some t →
      List.lookup "travel_speed" (applyIssueDeltas targets "stringing")
        = some (round3 (max 0 (t + 10)))) ∧
    (∀ issue, List.lookup issue ISSUE_PARAM_DELTAS = none →
      applyIssueDeltas targets issue = targets) := by
  have hfold : applyIssueDeltas targets "stringing"
      = deltaStep (deltaStep (deltaStep (deltaStep targets ("nozzle_temp", -8))
          ("fan_speed", 12)) ("retraction_distance", 1/5)) ("travel_speed", 10) := by
    rfl
  refine ⟨?_, ?_, ?_, ?_, ?_⟩
  · intro h
    rw [hfold]
    rw [lookup_deltaStep_ne (by decide), lookup_deltaStep_ne (by decide),
        lookup_deltaStep_ne (by decide)]
    have h1 := lookup_deltaStep_self ("nozzle_temp", -8) h
    rw [if_neg (by decide), if_neg (by decide)] at h1
    rw [h1]
    have h2 : max (0 : ℚ) (210 + -8) = ((202 : ℤ) : ℚ) := by norm_num
    rw [h2, round3_intCast]
    norm_num
  · intro f h
    rw [hfold]
    rw [lookup_deltaStep_ne (by decide), lookup_deltaStep_ne (by decide)]
    have h0 : List.lookup "fan_speed" (deltaStep targets ("nozzle_temp", -8)) = some f := by
      rw [lookup_deltaStep_ne (by decide)]
      exact h
    have h1 := lookup_deltaStep_self ("fan_speed", 12) h0
    rw [if_pos (by decide)] at h1
    exact h1
  · intro r h
    rw [hfold]
    rw [lookup_deltaStep_ne (by decide)]
    have h0 : List.lookup "retraction_distance"
        (deltaStep (deltaStep targets ("nozzle_temp", -8)) ("fan_speed", 12)) = some r := by
      rw [lookup_deltaStep_ne (by decide), lookup_deltaStep_ne (by decide)]
      exact h
    have h1 := lookup_deltaStep_self ("retraction_distance", 1/5) h0
    rw [if_neg (by decide), if_pos (by decide)] at h1
    exact h1
  · intro t h
    rw [hfold]
    have h0 : List.lookup "travel_speed"
        (deltaStep (deltaStep (deltaStep targets ("nozzle_temp", -8)) ("fan_speed", 12))
          ("retraction_distance", 1/5)) = some t := by
      rw [lookup_deltaStep_ne (by decide), lookup_deltaStep_ne (by decide),
          lookup_deltaStep_ne (by decide)]
      exact h
    have h1 := lookup_deltaStep_self ("travel_speed", 10) h0
    rw [if_neg (by decide), if_neg (by decide)] at h1
    exact h1
  · intro issue h
    unfold applyIssueDeltas
    rw [h]
    rfl

/-- C6 (witness): concrete baselines 210 / 80 / 0.6 / 130 give 202 and
the rounded adjusted values. -/
theorem issue_deltas_stringing_witness :
    List.lookup "nozzle_temp"
      (applyIssueDeltas
        [("nozzle_temp", 210), ("fan_speed", 80), ("retraction_distance", 3/5),
         ("travel_speed", 130)] "stringing") = some 202 ∧
    List.lookup "fan_speed"
      (applyIssueDeltas
        [("nozzle_temp", 210), ("fan_speed", 80), ("retraction_distance", 3/5),
         ("travel_speed", 130)] "stringing") = some (round3 (max 0 (min 100 ((80 : ℚ) + 12)))) := by
  have h := issue_deltas_stringing
    [("nozzle_temp", 210), ("fan_speed", 80), ("retraction_distance", 3/5), ("travel_speed", 130)]
  exact ⟨h.1 (by with_unfolding_all decide), h.2.1 80 (by with_unfolding_all decide)⟩

/-! ### Claim theorems for the linear classifier -/

/-- C7: a missing artifact document, or a weight-matrix row count that
differs from the label count, is a fatal configuration error: every
`predict` call returns an error (the loader raises on first use, before
any prediction is served) and is never downgraded to serving
predictions. -/
theorem linear_classifier_fail_fast (σ : ℚ → ℚ) (doc : Option LinearArtifact)
    (features : List ℚ)
    (h : doc = none ∨ ∃ d w, doc = some d ∧ d.weights = some w ∧
      w.length ≠ (d.labels.getD ISSUE_LABELS).length) :
    ∃ msg, linearPredict σ doc features = .error msg := by
  rcases h with rfl | ⟨d, w, rfl, hw, hne⟩
  · exact ⟨"Linear model weights not found", rfl⟩
  · refine ⟨"Weight matrix rows do not match label count", ?_⟩
    simp [linearPredict, linearLoad, hw, hne, Except.map]

/-- C7 (witness): with no artifact document, prediction on an identity
activation fails. -/
theorem linear_classifier_fail_fast_witness :
    ∃ msg, linearPredict (fun q => q) none [] = .error msg :=
  linear_classifier_fail_fast (fun q => q) none [] (Or.inl rfl)

/-! ### Facts about prediction ranking -/

theorem mem_insertDesc {x a : String × ℚ} {l : List (String × ℚ)} :
    a ∈ insertDesc x l ↔ a = x ∨ a ∈ l := by
  induction l with
  | nil => simp [insertDesc]
  | cons y ys ih =>
      simp only [insertDesc]
      split_ifs with h
      · simp only [List.mem_cons, ih]
        tauto
      · simp only [List.mem_cons]

theorem pairwise_insertDesc {x : String × ℚ} {l : List (String × ℚ)}
    (h : List.Pairwise (fun a b => b.2 ≤ a.2) l) :
    List.Pairwise (fun a b => b.2 ≤ a.2) (insertDesc x l) := by
  induction l with
  | nil => simp [insertDesc]
  | cons y ys ih =>
      rcases List.pairwise_cons.mp h with ⟨hy, hys⟩
      simp only [insertDesc]
      split_ifs with hc
      · refine List.pairwise_cons.mpr ⟨?_, ih hys⟩
        intro z hz
        rcases mem_insertDesc.mp hz with rfl | hz
        · exact hc
        · exact hy z hz
      · refine List.pairwise_cons.mpr ⟨?_, h⟩
        intro z hz
        rcases List.mem_cons.mp hz with rfl | hz
        · exact le_of_lt (lt_of_not_le hc)
        · exact le_trans (hy z hz) (le_of_lt (lt_of_not_le hc))

theorem pairwise_sortDesc (l : List (String × ℚ)) :
    List.Pairwise (fun a b => b.2 ≤ a.2) (sortDesc l) := by
  unfold sortDesc
  suffices h : ∀ acc, List.Pairwise (fun a b : String × ℚ => b.2 ≤ a.2) acc →
      List.Pairwise (fun a b : String × ℚ => b.2 ≤ a.2)
        (l.foldl (fun acc x => insertDesc x acc) acc) from h [] (by simp)
  induction l with
  | nil => intro acc h; exact h
  | cons x xs ih => intro acc h; exact ih _ (pairwise_insertDesc h)

theorem mem_sortDesc {a : String × ℚ} {l : List (String × ℚ)} :
    a ∈ sortDesc l ↔ a ∈ l := by
  unfold sortDesc
  suffices h : ∀ acc, (a ∈ l.foldl (fun acc x => insertDesc x acc) acc ↔ a ∈ acc ∨ a ∈ l) by
    simpa using h []
  induction l with
  | nil => intro acc; simp
  | cons x xs ih =>
      intro acc
      rw [List.foldl_cons, ih, mem_insertDesc]
      simp only [List.mem_cons]
      tauto

theorem adjustQ_bounds (m : MachineProfile) (l : String) {s : ℚ} (h0 : 0 ≤ s) (h1 : s ≤ 1) :
    0 ≤ adjustQ m l s ∧ adjustQ m l s ≤ 1 := by
  unfold adjustQ
  split_ifs with hc1 hc2 hc3
  · have hin : (0 : ℚ) ≤ min (199/200) (s + 2/25) := le_min (by norm_num) (by linarith)
    exact ⟨le_min (by norm_num) (by linarith),
      le_trans (min_le_left _ _) (by norm_num)⟩
  · exact ⟨le_min (by norm_num) (by linarith),
      le_trans (min_le_left _ _) (by norm_num)⟩
  · exact ⟨le_min (by norm_num) (by linarith),
      le_trans (min_le_left _ _) (by norm_num)⟩
  · exact ⟨h0, h1⟩

theorem adjustQ_eq_cases (m : MachineProfile) (l : String) (s : ℚ) :
    adjustQ m l s =
      (if bowdenMotion m ∧ l = "stringing" then min (199/200) (s + 2/25)
       else if m.enclosed ∧ (l = "warping" ∨ l = "overheating") then min (199/200) (s + 1/20)
       else s) := by
  unfold adjustQ
  split_ifs with hc1 hc2 <;> try rfl
  exfalso
  rcases hc2 with ⟨_, hl | hl⟩ <;> (rw [hc1.2] at hl; exact absurd hl (by decide))

theorem mem_adjustedScores {m : MachineProfile} {labels : List String} {probs : List ℚ}
    {p : String × ℚ} (h : p ∈ adjustedScores m labels probs) :
    ∃ s, (p.1, s) ∈ labels.zip probs ∧ p.2 = round3 (adjustQ m p.1 s) := by
  unfold adjustedScores at h
  rcases List.mem_map.mp h with ⟨ls, hls, heq⟩
  subst heq
  exact ⟨ls.2, by simpa using hls, rfl⟩

theorem zip_fst_nodup {labels : List String} {probs : List ℚ} (h : labels.Nodup)
    {l : String} {s s' : ℚ} (h1 : (l, s) ∈ labels.zip probs)
    (h2 : (l, s') ∈ labels.zip probs) : s = s' := by
  induction labels generalizing probs with
  | nil => simp at h1
  | cons x xs ih =>
      cases probs with
      | nil => simp at h1
      | cons q qs =>
          rcases List.nodup_cons.mp h with ⟨hx, hxs⟩
          simp only [List.zip_cons_cons, List.mem_cons] at h1 h2
          rcases h1 with h1 | h1
          · rcases h2 with h2 | h2
            · rw [Prod.mk.injEq] at h1 h2
              rw [h1.2, h2.2]
            · exfalso
              rw [Prod.mk.injEq] at h1
              have hmem := (List.of_mem_zip h2).1
              rw [← h1.1] at hx
              exact hx hmem
          · rcases h2 with h2 | h2
            · exfalso
              rw [Prod.mk.injEq] at h2
              have hmem := (List.of_mem_zip h1).1
              rw [← h2.1] at hx
              exact hx hmem
            · exact ih hxs h1 h2

/-- C8: when classifier scores lie in the unit interval (as sigmoid
outputs do), the prediction list built by `_build_predictions` is
descending in confidence, every confidence lies in the unit interval,
and at most five predictions are returned. -/
theorem predictions_sorted_bounded (m : MachineProfile) (labels : List String)
    (probs : List ℚ) (res : List Prediction)
    (hprob : ∀ p ∈ probs, 0 ≤ p ∧ p ≤ 1)
    (hok : buildPredictions m labels probs = .ok res) :
    res.length ≤ 5 ∧
    (∀ p ∈ res, 0 ≤ p.confidence ∧ p.confidence ≤ 1) ∧
    List.Pairwise (fun a b => b.confidence ≤ a.confidence) res := by
  unfold buildPredictions at hok
  split_ifs at hok with hlen
  have hres := Except.ok.inj hok
  refine ⟨?_, ?_, ?_⟩
  · rw [← hres, List.length_map]
    exact List.length_take_le 5 _
  · intro p hp
    rw [← hres] at hp
    rcases List.mem_map.mp hp with ⟨pr, hpr, hpeq⟩
    have hpr3 : pr ∈ adjustedScores m labels probs :=
      mem_sortDesc.mp (List.mem_of_mem_take hpr)
    rcases mem_adjustedScores hpr3 with ⟨s, hzip, hval⟩
    have hs := hprob s (List.of_mem_zip hzip).2
    have hadj := adjustQ_bounds m pr.1 hs.1 hs.2
    have hlow : 0 ≤ pr.2 := by rw [hval]; exact round3_nonneg hadj.1
    have hhigh : pr.2 ≤ 1 := by rw [hval]; exact round3_le_one hadj.2
    rw [← hpeq]
    exact ⟨hlow, hhigh⟩
  · rw [← hres]
    apply List.pairwise_map.mpr
    exact List.Pairwise.sublist (List.take_sublist 5 _) (pairwise_sortDesc _)

/-- C8 (witness): two in-range scores produce a descending two-element
prediction list. -/
theorem predictions_sorted_bounded_witness :
    List.Pairwise (fun a b => b.confidence ≤ a.confidence)
      [Prediction.mk "b" (3/4), Prediction.mk "a" (1/4)] := by
  have h := predictions_sorted_bounded {} ["a", "b"] [1/4, 3/4]
      [Prediction.mk "b" (3/4), Prediction.mk "a" (1/4)]
      (by with_unfolding_all decide) (by with_unfolding_all decide)
  exact h.2.2

/-- C10: classifier confidences are adjusted by machine metadata before
ranking: on a machine whose motion system mentions "bowden" the reported
confidence for `stringing` is round3(min(0.995, score + 0.08)); on an
enclosed machine `warping` and `overheating` get round3(min(0.995,
score + 0.05)); every other label keeps its raw score rounded to three
decimals.  `s` is the raw classifier score of label `l`. -/
theorem confidence_machine_adjustments (m : MachineProfile) (labels : List String)
    (probs : List ℚ) (res : List Prediction) (l : String) (s : ℚ)
    (hnd : labels.Nodup)
    (hok : buildPredictions m labels probs = .ok res)
    (hzip : (l, s) ∈ labels.zip probs) :
    ∀ p ∈ res, p.issue_id = l →
      p.confidence = round3
        (if bowdenMotion m ∧ l = "stringing" then min (199/200) (s + 2/25)
         else if m.enclosed ∧ (l = "warping" ∨ l = "overheating") then
           min (199/200) (s + 1/20)
         else s) := by
  intro p hp hpid
  unfold buildPredictions at hok
  split_ifs at hok with hlen
  have hres := Except.ok.inj hok
  rw [← hres] at hp
  rcases List.mem_map.mp hp with ⟨pr, hpr, hpeq⟩
  have hpr3 : pr ∈ adjustedScores m labels probs :=
    mem_sortDesc.mp (List.mem_of_mem_take hpr)
  rcases mem_adjustedScores hpr3 with ⟨s', hzip', hval⟩
  have hpid' : pr.1 = l := by
    rw [← hpeq] at hpid
    exact hpid
  rw [hpid'] at hzip'
  have hs' : s' = s := zip_fst_nodup hnd hzip' hzip
  rw [← hpeq]
  show pr.2 = _
  rw [hval, hpid', hs']
  exact congrArg round3 (adjustQ_eq_cases m l s)

/-- C10 (witness): on a Bowden machine a raw `stringing` score of 0.5 is
reported as 0.58 = round3(min(0.995, 0.5 + 0.08)). -/
theorem confidence_machine_adjustments_witness :
    (Prediction.mk "stringing" (29/50)).confidence
      = round3
        (if bowdenMotion { motion_system := some "Bowden" } ∧ "stringing" = "stringing" then
           min (199/200) ((1 : ℚ)/2 + 2/25)
         else if ({ motion_system := some "Bowden" } : MachineProfile).enclosed ∧
             ("stringing" = "warping" ∨ "stringing" = "overheating") then
           min (199/200) ((1 : ℚ)/2 + 1/20)
         else (1 : ℚ)/2) := by
  exact confidence_machine_adjustments { motion_system := some "Bowden" }
    ["stringing", "warping"] [1/2, 1/2]
    [Prediction.mk "stringing" (29/50), Prediction.mk "warping" (1/2)] "stringing" (1/2)
    (by with_unfolding_all decide) (by with_unfolding_all decide)
    (by with_unfolding_all decide)
    (Prediction.mk "stringing" (29/50)) (by with_unfolding_all decide) rfl

/-! ### Facts about the box search -/

theorem searchStep_snd (integral : List (List ℚ)) (wh ww : ℕ)
    (st : ℚ × Option (ℕ × ℕ × ℕ × ℕ)) (c : ℕ × ℕ) :
    (searchStep integral wh ww st c).2 = st.2 ∨
    (searchStep integral wh ww st c).2 = some (c.1, c.2, c.1 + ww - 1, c.2 + wh - 1) := by
  by_cases h : st.1 < windowSum integral c.1 c.2 (c.1 + ww - 1) (c.2 + wh - 1)
  · exact Or.inr (by simp [searchStep, h])
  · exact Or.inl (by simp [searchStep, h])

theorem searchBest_some {integral : List (List ℚ)} {wh ww : ℕ} {cands : List (ℕ × ℕ)}
    {best : ℚ} {c : ℕ × ℕ × ℕ × ℕ}
    (h : searchBest integral cands wh ww = (best, some c)) :
    ∃ x y, (x, y) ∈ cands ∧ c = (x, y, x + ww - 1, y + wh - 1) := by
  unfold searchBest at h
  suffices haux : ∀ (l : List (ℕ × ℕ)) (init : ℚ × Option (ℕ × ℕ × ℕ × ℕ)),
      (l.foldl (searchStep integral wh ww) init).2 = init.2 ∨
      ∃ x y, (x, y) ∈ l ∧
        (l.foldl (searchStep integral wh ww) init).2 = some (x, y, x + ww - 1, y + wh - 1) by
    rcases haux cands (-1, none) with h1 | ⟨x, y, hm, h2⟩
    · rw [h] at h1
      simp at h1
    · rw [h] at h2
      exact ⟨x, y, hm, Option.some.inj h2⟩
  intro l
  induction l with
  | nil => intro init; exact Or.inl rfl
  | cons d ds ih =>
      intro init
      rw [List.foldl_cons]
      rcases ih (searchStep integral wh ww init d) with h1 | ⟨x, y, hm, h2⟩
      · rcases searchStep_snd integral wh ww init d with h3 | h3
        · exact Or.inl (h1.trans h3)
        · exact Or.inr ⟨d.1, d.2, List.mem_cons_self d ds, h1.trans h3⟩
      · exact Or.inr ⟨x, y, List.mem_cons_of_mem d hm, h2⟩

theorem mem_stridedPositions {dim win stride x : ℕ} (h : x ∈ stridedPositions dim win stride) :
    win ≤ dim ∧ x ≤ dim - win := by
  unfold stridedPositions at h
  split_ifs at h with hw
  · refine ⟨hw, ?_⟩
    rcases List.mem_range'.mp h with ⟨i, hi, rfl⟩
    have hile : i ≤ (dim - win) / stride := Nat.lt_succ_iff.mp hi
    have h1 : stride * i ≤ stride * ((dim - win) / stride) := Nat.mul_le_mul_left _ hile
    have h2 : stride * ((dim - win) / stride) ≤ dim - win := by
      rw [Nat.mul_comm]
      exact Nat.div_mul_le_self _ _
    omega
  · exact absurd h (List.not_mem_nil x)

theorem mem_candidates {H W wh ww sy sx x y : ℕ}
    (h : (x, y) ∈ candidates H W wh ww sy sx) :
    (wh ≤ H ∧ y ≤ H - wh) ∧ (ww ≤ W ∧ x ≤ W - ww) := by
  unfold candidates at h
  rcases List.mem_flatMap.mp h with ⟨y', hy', hx⟩
  rcases List.mem_map.mp hx with ⟨x', hx', heq⟩
  rw [Prod.mk.injEq] at heq
  constructor
  · rw [← heq.2]
    exact mem_stridedPositions hy'
  · rw [← heq.1]
    exact mem_stridedPositions hx'

theorem boxLoop_bounds {H W wh ww sy sx : ℕ}
    (hW : 0 < W) (hH : 0 < H) (hww : 1 ≤ ww) (hwh : 1 ≤ wh) :
    ∀ (preds : List Prediction) (heat : List (List ℚ)) (b : Box),
      b ∈ boxLoop H W wh ww sy sx heat preds →
      0 ≤ b.x ∧ 0 ≤ b.y ∧ b.x + b.width ≤ 1 ∧ b.y + b.height ≤ 1 ∧
      1/10 ≤ b.confidence ∧ b.confidence ≤ 99/100 := by
  intro preds
  induction preds with
  | nil =>
      intro heat b hb
      simp [boxLoop] at hb
  | cons pred rest ih =>
      intro heat b hb
      simp only [boxLoop] at hb
      rcases hsb : searchBest (integralOf heat) (candidates H W wh ww sy sx) wh ww
        with ⟨best, copt⟩
      rw [hsb] at hb
      cases copt with
      | none => simp at hb
      | some c =>
          simp only [List.mem_cons] at hb
          rcases hb with rfl | hb
          · rcases searchBest_some hsb with ⟨x, y, hm, hc⟩
            subst hc
            rcases mem_candidates hm with ⟨⟨hwhH, hyb⟩, ⟨hwwW, hxb⟩⟩
            have hWq : (0 : ℚ) < (W : ℚ) := by exact_mod_cast hW
            have hHq : (0 : ℚ) < (H : ℚ) := by exact_mod_cast hH
            have hx01 : (0 : ℚ) ≤ (x : ℚ) / (W : ℚ) :=
              div_nonneg (Nat.cast_nonneg x) (le_of_lt hWq)
            have hy01 : (0 : ℚ) ≤ (y : ℚ) / (H : ℚ) :=
              div_nonneg (Nat.cast_nonneg y) (le_of_lt hHq)
            have hxw : (x : ℚ) / (W : ℚ) + (ww : ℚ) / (W : ℚ) ≤ 1 := by
              rw [div_add_div_same, div_le_one hWq]
              exact_mod_cast (by omega : x + ww ≤ W)
            have hyh : (y : ℚ) / (H : ℚ) + (wh : ℚ) / (H : ℚ) ≤ 1 := by
              rw [div_add_div_same, div_le_one hHq]
              exact_mod_cast (by omega : y + wh ≤ H)
            have hwnat : (x + ww - 1 - x + 1 : ℕ) = ww := by omega
            have hhnat : (y + wh - 1 - y + 1 : ℕ) = wh := by omega
            refine ⟨?_, ?_, ?_, ?_, ?_, ?_⟩
            · exact round3_nonneg hx01
            · exact round3_nonneg hy01
            · show round3 ((x : ℚ) / (W : ℚ))
                + round3 (((x + ww - 1 - x + 1 : ℕ) : ℚ) / (W : ℚ)) ≤ 1
              rw [hwnat]
              exact round3_add_le_one hxw
            · show round3 ((y : ℚ) / (H : ℚ))
                + round3 (((y + wh - 1 - y + 1 : ℕ) : ℚ) / (H : ℚ)) ≤ 1
              rw [hhnat]
              exact round3_add_le_one hyh
            · exact le_min (by norm_num) (le_max_left _ _)
            · exact min_le_left _ _
          · exact ih _ b hb

/-! ### Claim theorems for the box search -/

/-- C9 (counterexample): on a non-uniform 16-by-16 activation map whose
single fitting window dominates even after 0.25 suppression, two
consecutive boxes are fully identical (same coordinates and confidence,
and the same issue when the artifact repeats a label) — suppression does
not guarantee that consecutive boxes differ. -/
theorem consecutive_boxes_can_coincide :
    (entry (((5 : ℚ) :: List.replicate 15 4)
        :: List.replicate 15 (List.replicate 16 (4 : ℚ))) 0 0
      ≠ entry (((5 : ℚ) :: List.replicate 15 4)
        :: List.replicate 15 (List.replicate 16 (4 : ℚ))) 0 1) ∧
    buildBoxes (((5 : ℚ) :: List.replicate 15 4)
        :: List.replicate 15 (List.replicate 16 (4 : ℚ)))
        [Prediction.mk "stringing" (9/10), Prediction.mk "stringing" (8/10)]
      = [Box.mk "stringing" (99/100) 0 0 1 1, Box.mk "stringing" (99/100) 0 0 1 1] := by
  constructor
  · with_unfolding_all decide
  · with_unfolding_all decide

/-- C9 (amended): every box produced by `_build_boxes` lies inside the
unit square — x, y nonnegative, x + width and y + height at most one
(exactly, despite the three-decimal rounding: two exact half-ties cannot
both round up, by parity of their floors) — and its confidence lies in
[0.1, 0.99] ⊆ [0, 1].  The selected region is damped by 0.25 before the
next search, but consecutive boxes may still coincide when one window
dominates, per the counterexample. -/
theorem boxes_inside_unit_square (activation : List (List ℚ)) (preds : List Prediction) :
    ∀ b ∈ buildBoxes activation preds,
      0 ≤ b.x ∧ 0 ≤ b.y ∧ b.x + b.width ≤ 1 ∧ b.y + b.height ≤ 1 ∧
      1/10 ≤ b.confidence ∧ b.confidence ≤ 99/100 := by
  intro b hb
  cases preds with
  | nil => simp [buildBoxes] at hb
  | cons p ps =>
      simp only [buildBoxes] at hb
      split_ifs at hb with hg
      · simp at hb
      · push_neg at hg
        have hH : 0 < activation.length := by omega
        have hW : 0 < (activation.headD []).length := by omega
        have hwh : 1 ≤ max 16 (activation.length / 4) := le_trans (by norm_num) (le_max_left _ _)
        have hww : 1 ≤ max 16 ((activation.headD []).length / 4) :=
          le_trans (by norm_num) (le_max_left _ _)
        exact boxLoop_bounds hW hH hww hwh _ _ b hb

/-- C9 (witness): the unique box of a uniform 16-by-16 map lies inside
the unit square with confidence 0.99. -/
theorem boxes_inside_unit_square_witness :
    0 ≤ (Box.mk "stringing" (99/100) 0 0 1 1).x ∧
    0 ≤ (Box.mk "stringing" (99/100) 0 0 1 1).y ∧
    (Box.mk "stringing" (99/100) 0 0 1 1).x + (Box.mk "stringing" (99/100) 0 0 1 1).width ≤ 1 ∧
    (Box.mk "stringing" (99/100) 0 0 1 1).y + (Box.mk "stringing" (99/100) 0 0 1 1).height ≤ 1 ∧
    1/10 ≤ (Box.mk "stringing" (99/100) 0 0 1 1).confidence ∧
    (Box.mk "stringing" (99/100) 0 0 1 1).confidence ≤ 99/100 :=
  boxes_inside_unit_square (List.replicate 16 (List.replicate 16 (1 : ℚ)))
    [Prediction.mk "stringing" (9/10)] (Box.mk "stringing" (99/100) 0 0 1 1)
    (by with_unfolding_all decide)

/-! ### Facts about the suggestion planner -/

theorem baselineOf_eq_fdm {ctx : PlannerCtx} (h : isFDMBaseline ctx.machine = true) :
    baselineOf ctx = baselineFDM ctx := by
  unfold baselineOf
  unfold isFDMBaseline at h
  cases hm : ctx.machine.mtype with
  | none => rfl
  | some t =>
      rw [hm] at h
      simp only [decide_eq_true_eq] at h
      show (if t = "MSLA" ∨ t = "SLA" then baselineResin ctx
        else if t = "CNC_Router" ∨ t = "CNC_Mill" then baselineCNC ctx
        else baselineFDM ctx) = baselineFDM ctx
      rw [if_neg (by tauto), if_neg (by tauto)]

theorem handleIssue_ok {ctx : PlannerCtx} (pred : Prediction) (issue : String)
    (hf : baselineOf ctx = baselineFDM ctx) :
    ∃ s, handleIssue ctx issue pred = .ok s ∧ s.issue_id = pred.issue_id := by
  simp only [handleIssue]
  split_ifs with h1 h2 h3 h4 h5
  · simp only [stringingSuggestion]
    rw [hf]
    exact ⟨_, rfl, rfl⟩
  · simp only [underExtrusionSuggestion]
    rw [hf]
    exact ⟨_, rfl, rfl⟩
  · simp only [ringingSuggestion]
    rw [hf]
    exact ⟨_, rfl, rfl⟩
  · exact ⟨_, rfl, rfl⟩
  · exact ⟨_, rfl, rfl⟩
  · exact ⟨_, rfl, rfl⟩

theorem mapM_ok_forall {α β : Type} {f : α → Except String β} (P : α → β → Prop) :
    ∀ l : List α, (∀ a ∈ l, ∃ b, f a = .ok b ∧ P a b) →
      ∃ out, List.mapM f l = .ok out ∧ List.Forall₂ P l out := by
  intro l
  induction l with
  | nil => intro _; exact ⟨[], rfl, List.Forall₂.nil⟩
  | cons x xs ih =>
      intro h
      rcases h x (List.mem_cons_self x xs) with ⟨b, hb, hP⟩
      rcases ih (fun a ha => h a (List.mem_cons_of_mem x ha)) with ⟨out, hout, hF⟩
      refine ⟨b :: out, ?_, List.Forall₂.cons hP hF⟩
      rw [List.mapM_cons, hb, hout]
      rfl

/-- C5 (amended): an empty prediction list, or one in which every
confidence is below 0.5, yields exactly one suggestion, with issue id
`general_tuning` and the low-confidence flag true; a list containing a
confidence of at least 0.5 gets no substitution — one suggestion per
prediction, each carrying its prediction's issue id — provided the
machine's baseline is the FDM table (on resin or CNC machine types a
handler that reads an FDM-only baseline key raises `KeyError`, per the
counterexample). -/
theorem plan_low_confidence_policy (ctx : PlannerCtx) (preds : List Prediction) :
    ((preds = [] ∨ ∀ p ∈ preds, p.confidence < 1/2) →
      ∃ s, plan ctx preds = .ok ([s], true) ∧ s.issue_id = "general_tuning") ∧
    ((∃ p ∈ preds, 1/2 ≤ p.confidence) → isFDMBaseline ctx.machine = true →
      ∃ suggs, plan ctx preds = .ok (suggs, false) ∧
        List.Forall₂ (fun p s => s.issue_id = p.issue_id) preds suggs) := by
  constructor
  · intro h
    have hl : planLowConfidence preds = true := by
      unfold planLowConfidence
      rcases h with rfl | hall
      · rfl
      · have hallb : (preds.all fun p => decide (p.confidence < 1/2)) = true :=
          List.all_eq_true.mpr fun p hp => decide_eq_true (hall p hp)
        cases hpe : preds.isEmpty
        · rw [hallb]
          rfl
        · rfl
    have hplan : plan ctx preds
        = .ok ([generalBestPractice ctx (Prediction.mk "general_tuning" (9/20))], true) := by
      unfold plan
      rw [hl]
      rfl
    exact ⟨_, hplan, rfl⟩
  · rintro ⟨p0, hp0, hge⟩ hFDM
    have hne : preds ≠ [] := List.ne_nil_of_mem hp0
    have hpe : preds.isEmpty = false := by
      cases preds with
      | nil => exact absurd rfl hne
      | cons a as => rfl
    have hallb : (preds.all fun p => decide (p.confidence < 1/2)) = false := by
      by_contra hc
      have hc' : (preds.all fun p => decide (p.confidence < 1/2)) = true := by
        revert hc
        cases preds.all fun p => decide (p.confidence < 1/2) <;> simp
      have h1 := List.all_eq_true.mp hc' p0 hp0
      have h2 := of_decide_eq_true h1
      linarith
    have hl : planLowConfidence preds = false := by
      unfold planLowConfidence
      rw [hpe, hallb]
      rfl
    have hf := baselineOf_eq_fdm hFDM
    have hh : ∀ p ∈ preds, ∃ s, handleIssue ctx p.issue_id p = .ok s ∧ s.issue_id = p.issue_id :=
      fun p _ => handleIssue_ok p p.issue_id hf
    rcases mapM_ok_forall
        (fun (p : Prediction) (s : Suggestion) => s.issue_id = p.issue_id) preds hh
      with ⟨suggs, hm, hF⟩
    refine ⟨suggs, ?_, hF⟩
    have hplan : plan ctx preds
        = (preds.mapM fun p => handleIssue ctx p.issue_id p).map fun suggs => (suggs, false) := by
      unfold plan
      rw [hl]
      rfl
    rw [hplan, hm]
    rfl

/-- C5 (counterexample): on a resin-type machine (`MSLA`), a single
high-confidence `stringing` prediction does not produce a suggestion:
the stringing handler reads the FDM-only baseline key `nozzle_temp` from
the resin baseline and raises `KeyError`, so the claim's "one suggestion
is produced per prediction" fails as stated. -/
theorem plan_keyerror_on_resin :
    plan { machine := { mtype := some "MSLA" }, material := "PLA", experience := "Intermediate" }
      [Prediction.mk "stringing" (9/10)]
    = .error "KeyError: nozzle_temp" := by
  with_unfolding_all decide

/-- C5 (witness): on an FDM machine, one high-confidence `stringing`
prediction yields exactly one suggestion with matching issue id and no
substitution. -/
theorem plan_low_confidence_policy_witness :
    ∃ suggs, plan { machine := {}, material := "PLA", experience := "Intermediate" }
        [Prediction.mk "stringing" (9/10)] = .ok (suggs, false) ∧
      List.Forall₂ (fun p s => s.issue_id = p.issue_id)
        [Prediction.mk "stringing" (9/10)] suggs := by
  refine (plan_low_confidence_policy
      { machine := {}, material := "PLA", experience := "Intermediate" }
      [Prediction.mk "stringing" (9/10)]).2
    ⟨Prediction.mk "stringing" (9/10), ?_, ?_⟩ ?_
  · exact List.mem_cons_self _ _
  · norm_num
  · with_unfolding_all decide
